import Mathlib

/-!
# StoryOS content-versioning core: a shallow embedding

This file embeds the content-versioning and dependency-alert engine of the
StoryOS API (services/deliverable_service.py, services/unf_service.py,
services/story_model_composer.py, services/voice_transformer.py and the
pydantic models they consume) as executable Lean definitions, and proves or
refutes the specification claims about it.

Conventions used throughout the embedding:
* Python `str` is `String`; Python string primitives (`split`, `strip`,
  `replace`, lexicographic `<`) are re-implemented below with Python's
  semantics (leftmost, non-overlapping replacement; code-point comparison).
* UUIDs are modelled as `Nat` identifiers.
* Python dicts whose insertion order or overwrite behaviour is observable are
  modelled as association lists with an `upsert` that mirrors dict assignment.
* The row store is a `Store` structure of lists; `get_many(..., order_by=
  "created_at DESC")` is modelled by keeping each table's list newest-first
  (inserts prepend).
* A Python method that can raise is a function returning the (possibly
  updated) store together with an outcome value; every `raise` that happens
  before the first write returns the store unchanged, mirroring the source's
  control flow.
-/

namespace StoryOS

/-! ## Python string primitives -/

/-- Python's default whitespace set for `str.strip` / `\s` (ASCII part). -/
def isPySpace (c : Char) : Bool :=
  c = ' ' || c = '\t' || c = '\n' || c = '\r' || c = '\x0b' || c = '\x0c'

/-- `[a-zA-Z]`, as used in the transformer's lookaround patterns. -/
def isAsciiAlpha (c : Char) : Bool :=
  ('a' ≤ c && c ≤ 'z') || ('A' ≤ c && c ≤ 'Z')

/-- Python regex `\w` (ASCII part): `[a-zA-Z0-9_]`. -/
def isWordChar (c : Char) : Bool :=
  isAsciiAlpha c || ('0' ≤ c && c ≤ '9') || c = '_'

/-- Does `pat` occur in `s`?  (Python's `pat in s`.) -/
def listContainsSub (pat s : List Char) : Bool :=
  match s with
  | [] => pat.isEmpty
  | _ :: t => pat.isPrefixOf s || listContainsSub pat t

def strContains (s pat : String) : Bool := listContainsSub pat.data s.data

/-- Leftmost, non-overlapping replacement of every occurrence of `pat` by
`rep` (Python `str.replace` / `re.sub` on an escaped literal).  An empty
pattern leaves the string unchanged.  The scanners in this file recurse on
suffixes obtained with `drop`, so they take a fuel argument (every step
consumes at least one character, so fuel = input length always suffices;
the fuel-exhausted arm is unreachable) — this keeps them structurally
recursive, hence kernel-evaluable. -/
def replCharsF (pat rep : List Char) : Nat → List Char → List Char
  | _, [] => []
  | 0, s => s
  | fuel + 1, c :: cs =>
    if pat.isPrefixOf (c :: cs) && !pat.isEmpty then
      rep ++ replCharsF pat rep fuel ((c :: cs).drop pat.length)
    else
      c :: replCharsF pat rep fuel cs

def replChars (pat rep s : List Char) : List Char := replCharsF pat rep s.length s

def pyReplace (s pat rep : String) : String :=
  ⟨replChars pat.data rep.data s.data⟩

/-- Python `str.strip()` (default whitespace). -/
def pyStrip (s : String) : String :=
  ⟨(s.data.dropWhile isPySpace).reverse.dropWhile isPySpace |>.reverse⟩

/-- Python `str.split(sep)` splitting core: cut at each leftmost,
non-overlapping occurrence of `sep`; an empty separator never splits. -/
def splitCharsF (sep : List Char) : Nat → List Char → List (List Char)
  | _, [] => [[]]
  | 0, s => [s]
  | fuel + 1, c :: cs =>
    if sep.isPrefixOf (c :: cs) && !sep.isEmpty then
      [] :: splitCharsF sep fuel ((c :: cs).drop sep.length)
    else
      match splitCharsF sep fuel cs with
      | h :: t => (c :: h) :: t
      | [] => [[c]]

def splitChars (sep s : List Char) : List (List Char) := splitCharsF sep s.length s

/-- Python `str.split(sep)` for a non-empty separator. -/
def pySplit (s sep : String) : List String :=
  (splitChars sep.data s.data).map (fun cs => ⟨cs⟩)

/-- Python `str.split()` (no argument): split on whitespace runs, dropping
empty fragments. -/
def pySplitWs (s : String) : List String :=
  (s.split (fun c => isPySpace c)).filter (fun t => t ≠ "")

/-- Python string `<`: lexicographic comparison by code point. -/
def pyCharListLt : List Char → List Char → Bool
  | _, [] => false
  | [], _ :: _ => true
  | a :: as, b :: bs =>
    if a.val < b.val then true
    else if b.val < a.val then false
    else pyCharListLt as bs

/-- Python's `a > b` on version strings, as used (incorrectly) by
`refresh_deliverable` at deliverable_service.py:673. -/
def pyStrGt (a b : String) : Bool := pyCharListLt b.data a.data

/-! ## The dotted-version comparator (`DeliverableService._is_newer_version`) -/

/-- Python `int(s)`: optional surrounding whitespace, optional sign, at least
one ASCII digit.  Returns `none` where the source raises `ValueError`. -/
def pyInt? (s : String) : Option Int :=
  let t := (s.data.dropWhile isPySpace).reverse.dropWhile isPySpace |>.reverse
  let (neg, ds) :=
    match t with
    | '-' :: cs => (true, cs)
    | '+' :: cs => (false, cs)
    | cs => (false, cs)
  if !ds.isEmpty && ds.all Char.isDigit then
    let n : Nat := ds.foldl (fun acc d => acc * 10 + (d.toNat - 48)) 0
    some (if neg then -(n : Int) else (n : Int))
  else none

/-- `[int(x) for x in v.split('.')]`; `none` where the comprehension raises. -/
def parseVersion (v : String) : Option (List Int) :=
  (splitChars ['.'] v.data).mapM (fun cs => pyInt? ⟨cs⟩)

/-- `parts.extend([0] * (max_len - len(parts)))`. -/
def padTo (xs : List Int) (n : Nat) : List Int :=
  xs ++ List.replicate (n - xs.length) 0

/-- Python `list.__gt__` on integer lists (lexicographic). -/
def pyListGt : List Int → List Int → Bool
  | [], [] => false
  | [], _ :: _ => false
  | _ :: _, [] => true
  | a :: as, b :: bs =>
    if a > b then true
    else if a < b then false
    else pyListGt as bs

/-- `DeliverableService._is_newer_version` (deliverable_service.py:426-445):
parse both dotted versions into integer lists, right-pad the shorter with
zeros, compare as Python lists; any parse failure yields `False`. -/
def isNewerVersion (versionA versionB : String) : Bool :=
  match parseVersion versionA, parseVersion versionB with
  | some partsA, some partsB =>
    let maxLen := max partsA.length partsB.length
    pyListGt (padTo partsA maxLen) (padTo partsB maxLen)
  | _, _ => false

/-! ## Association-list operations mirroring Python dicts -/

/-- Python dict assignment `d[k] = v`: overwrite in place, else append
(insertion order is preserved, as in CPython). -/
def upsert {α β : Type} [BEq α] : List (α × β) → α → β → List (α × β)
  | [], k, v => [(k, v)]
  | (k', v') :: t, k, v =>
    if k' == k then (k', v) :: t else (k', v') :: upsert t k v

/-- Python `d.get(k)`. -/
def alookup {α β : Type} [BEq α] (l : List (α × β)) (k : α) : Option β :=
  (l.find? (fun p => p.1 == k)).map (·.2)

/-! ## Data model (models/unf.py, models/deliverables.py, models/templates.py,
models/voice.py, models/story_models.py)

UUIDs are `Nat`; `created_at`/`updated_at` timestamps come from the database
clock and are not modelled (no embedded operation reads them — only the
`created_at DESC` listing order, which is represented by keeping each table
newest-first). -/

inductive ElementStatus where
  | draft | approved | superseded | archived
deriving DecidableEq, Repr

/-- models/unf.py `Element`.  `content` is `Optional[str]` in the source; it
is modelled as a plain string because every embedded reader either coalesces
`None` with `or ""` or tests truthiness, for which `None` and `""` agree. -/
structure Element where
  id : Nat
  layer_id : Nat
  name : String
  content : String
  version : String
  status : ElementStatus
  prev_element_id : Option Nat
  metadata : List (String × String)
deriving DecidableEq, Repr

inductive DeliverableStatus where
  | draft | review | approved | published | superseded
deriving DecidableEq, Repr

/-- One entry of a Deliverable's validation log (timestamp omitted: wall
clock).  The embedded operations only ever copy this list around. -/
structure ValidationLogEntry where
  rule : String
  passed : Bool
  message : Option String
deriving DecidableEq, Repr

/-- A value stored under a section name in `rendered_content`.  The source
stores either a plain string (create, refresh) or — through the missing
unpacking at deliverable_service.py:558 — the raw
`(section_content, transformation_notes)` 2-tuple (version-creating update). -/
inductive RenderedValue where
  | s (text : String)
  | pair (text notes : String)
deriving DecidableEq, Repr

/-- One level of structure for the opaque `metadata` maps. -/
inductive MetaVal where
  | s (v : String)
  | map (m : List (String × String))
deriving DecidableEq, Repr

abbrev Meta := List (String × MetaVal)

/-- models/deliverables.py `Deliverable` (the persisted row). -/
structure DeliverableRow where
  id : Nat
  name : String
  template_id : Nat
  template_version : String
  story_model_id : Nat
  voice_id : Nat
  voice_version : String
  instance_data : List (String × String)
  status : DeliverableStatus
  version : Nat
  prev_deliverable_id : Option Nat
  element_versions : List (Nat × String)
  rendered_content : List (String × RenderedValue)
  validation_log : List ValidationLogEntry
  metadata : Meta
deriving DecidableEq, Repr

/-- models/deliverables.py `ImpactAlert` (computed, never persisted). -/
structure ImpactAlert where
  element_id : Nat
  element_name : String
  old_version : String
  new_version : String
  status : String
deriving DecidableEq, Repr

/-- A story-model section-strategy configuration (a JSON dict in the source);
only the keys the composer reads are represented.  The all-`none` value
plays the role of the empty dict `{}`. -/
structure Strategy where
  extraction_strategy : Option String := none
  max_words : Option Nat := none
  format : Option String := none
  quote_number : Option Nat := none
  field_path : Option String := none
  selection_count : Option Nat := none
  instance_fields : Option (List String) := none
  composition_sources : Option (List String) := none
deriving DecidableEq, Repr

/-- models/story_models.py `StoryModel`, restricted to what the embedded
operations read (`sections` and `constraints` feed only the validation
routine, which is not embedded — see `createDeliverable`). -/
structure StoryModel where
  id : Nat
  section_strategies : List (String × Strategy)
deriving DecidableEq, Repr

/-- models/templates.py `SectionBinding` (order/binding rules are not read by
the embedded operations). -/
structure SectionBinding where
  section_name : String
  element_ids : List Nat
deriving DecidableEq, Repr

/-- models/templates.py `Template` with its bindings. -/
structure Template where
  id : Nat
  name : String
  version : String
  story_model_id : Nat
  default_voice_id : Nat
  section_bindings : List SectionBinding
deriving DecidableEq, Repr

/-- One entry of `BrandVoice.rules["lexicon"]`. -/
structure LexiconMapping where
  generic : List String
  branded : String
deriving DecidableEq, Repr

/-- One entry of `BrandVoice.rules["tone_rules"]`; `none` models an absent
dict key. -/
structure ToneRule where
  rtype : Option String := none
  level : Option String := none
  patterns : List (String × String) := []
  value : Option String := none
  company_name : Option String := none
deriving DecidableEq, Repr

/-- `BrandVoice.rules` (the legacy rule block consumed by the regex
transformer); `terminology` holds the `preferred_terms` map. -/
structure VoiceRules where
  lexicon : List (String × LexiconMapping) := []
  terminology : List (String × String) := []
  tone_rules : List ToneRule := []
deriving DecidableEq, Repr

/-- models/voice.py `BrandVoice`, restricted to the fields the embedded
operations read (`traits`/`tone_rules`/`lexicon` feed only the unreachable
LLM path of `_assemble_section_content`).  `rules = none` models both an
absent and an empty (falsy) `rules` dict. -/
structure Voice where
  id : Nat
  version : String
  rules : Option VoiceRules
deriving DecidableEq, Repr

/-- models/deliverables.py `DeliverableUpdate`.  Note: the patch model has no
`template_id` field, so `'template_id' in data` is always false in
`update_deliverable`.  A `some` field models a set-and-non-None patch entry
(`model_dump(exclude_unset=True, exclude_none=True)`). -/
structure DeliverableUpdate where
  name : Option String := none
  voice_id : Option Nat := none
  story_model_id : Option Nat := none
  instance_data : Option (List (String × String)) := none
  status : Option DeliverableStatus := none
  rendered_content : Option (List (String × String)) := none
  metadata : Option Meta := none
deriving DecidableEq, Repr

/-- models/deliverables.py `DeliverableCreate`. -/
structure DeliverableCreate where
  name : String
  template_id : Nat
  voice_id : Option Nat := none
  status : DeliverableStatus := .draft
  instance_data : List (String × String) := []
  metadata : Meta := []
deriving DecidableEq, Repr

/-- The row store (storage adapter).  Each table is a list kept newest-first
(`created_at DESC`, the order every embedded `get_many` call requests);
`nextId` supplies fresh row ids. -/
structure Store where
  elements : List Element
  deliverables : List DeliverableRow
  templates : List Template
  voices : List Voice
  storyModels : List StoryModel
  elementDependencies : List (Nat × Nat × Nat)
  nextId : Nat
deriving DecidableEq, Repr

/-- `storage.get_one("unf_elements", id)` / `UNFService.get_element`. -/
def getElement (st : Store) (id : Nat) : Option Element :=
  st.elements.find? (fun e => e.id == id)

/-- `DeliverableService.get_deliverable` (the JSON fields are native here). -/
def getDeliverableRow (st : Store) (id : Nat) : Option DeliverableRow :=
  st.deliverables.find? (fun d => d.id == id)

/-- `TemplateService.get_template_with_bindings`. -/
def getTemplate (st : Store) (id : Nat) : Option Template :=
  st.templates.find? (fun t => t.id == id)

/-- `VoiceService.get_voice`. -/
def getVoice (st : Store) (id : Nat) : Option Voice :=
  st.voices.find? (fun v => v.id == id)

/-- `StoryModelService.get_story_model`. -/
def getStoryModel (st : Store) (id : Nat) : Option StoryModel :=
  st.storyModels.find? (fun m => m.id == id)

/-! ## Voice transformer (services/voice_transformer.py)

The transformer only ever substitutes concrete literal patterns, so each
`re.sub` call is embedded as a guarded literal replacement.  The guards model
the three pattern shapes the source uses: none (plain `re.escape(term)`),
`(?<![a-zA-Z])…(?![a-zA-Z])` lookarounds, and `\b…\b` word boundaries. -/

/-- Case-insensitive prefix test (ASCII lowering, as `re.IGNORECASE` does on
this data). -/
def ciPrefix : List Char → List Char → Bool
  | [], _ => true
  | _ :: _, [] => false
  | p :: ps, c :: cs => (p.toLower == c.toLower) && ciPrefix ps cs

/-- Scanning core of `re.sub` on a literal pattern.  `ci` selects
case-insensitive matching; `okL prev first` / `okR last next` are boundary
guards evaluated against the original string's characters adjacent to a
candidate match (`none` = string edge).  Replacement is leftmost and
non-overlapping; scanning resumes after the matched text. -/
def reSubGuardF (ci : Bool) (okL : Option Char → Char → Bool)
    (okR : Char → Option Char → Bool) (pat rep : List Char) :
    Nat → Option Char → List Char → List Char
  | _, _, [] => []
  | 0, _, s => s
  | fuel + 1, prev, c :: cs =>
    if !pat.isEmpty && ((if ci then ciPrefix pat (c :: cs) else pat.isPrefixOf (c :: cs)) &&
        okL prev (pat.headD c) &&
        okR (pat.getLastD c) (((c :: cs).drop pat.length).head?)) then
      rep ++ reSubGuardF ci okL okR pat rep fuel (((c :: cs).take pat.length).getLast?)
        ((c :: cs).drop pat.length)
    else
      c :: reSubGuardF ci okL okR pat rep fuel (some c) cs

def reSubGuard (ci : Bool) (okL : Option Char → Char → Bool)
    (okR : Char → Option Char → Bool) (pat rep : List Char) (prev : Option Char)
    (s : List Char) : List Char :=
  reSubGuardF ci okL okR pat rep s.length prev s

def noGuardL : Option Char → Char → Bool := fun _ _ => true

def noGuardR : Char → Option Char → Bool := fun _ _ => true

/-- `(?<![a-zA-Z])` before the match. -/
def alphaGuardL : Option Char → Char → Bool := fun prev _ => !(prev.any isAsciiAlpha)

/-- `(?![a-zA-Z])` after the match. -/
def alphaGuardR : Char → Option Char → Bool := fun _ next => !(next.any isAsciiAlpha)

/-- `\b` before the match (a word boundary between the previous original
character and the pattern's first character). -/
def bGuardL : Option Char → Char → Bool :=
  fun prev first => (prev.any isWordChar) != isWordChar first

/-- `\b` after the match. -/
def bGuardR : Char → Option Char → Bool :=
  fun last next => isWordChar last != (next.any isWordChar)

/-- `re.sub(re.escape(pat), rep, s, flags=re.IGNORECASE)` (terminology). -/
def ciReplaceAll (s pat rep : String) : String :=
  ⟨reSubGuard true noGuardL noGuardR pat.data rep.data none s.data⟩

/-- `VoiceTransformer._apply_lexicon`. -/
def applyLexicon (content : String) (lexicon : List (String × LexiconMapping)) : String :=
  lexicon.foldl (fun content entry =>
    let mapping := entry.2
    if mapping.branded == "" then content
    else
      mapping.generic.foldl (fun content generic =>
        if strContains generic " " then
          ⟨reSubGuard true bGuardL bGuardR generic.data mapping.branded.data none content.data⟩
        else
          ⟨reSubGuard true alphaGuardL alphaGuardR generic.data mapping.branded.data none
            content.data⟩) content) content

/-- `VoiceTransformer._apply_terminology` (the `preferred_terms` map). -/
def applyTerminology (content : String) (terminology : List (String × String)) : String :=
  terminology.foldl (fun content p => ciReplaceAll content p.1 p.2) content

/-- The built-in contraction table of `_apply_formality` (formal level). -/
def formalContractions : List (String × String) :=
  [("We\x27re", "We are"), ("we\x27re", "we are"), ("don\x27t", "do not"),
   ("doesn\x27t", "does not"), ("can\x27t", "cannot"), ("won\x27t", "will not"),
   ("it\x27s", "it is"), ("that\x27s", "that is"), ("what\x27s", "what is")]

/-- The built-in expansion table of `_apply_formality` (casual level). -/
def casualExpansions : List (String × String) :=
  [("We are", "We\x27re"), ("we are", "we\x27re"), ("do not", "don\x27t"),
   ("does not", "doesn\x27t"), ("cannot", "can\x27t"), ("will not", "won\x27t"),
   ("it is", "it\x27s"), ("that is", "that\x27s")]

/-- Python `dict.update`: overwrite existing keys in place, append new ones. -/
def dictUpdate (base upd : List (String × String)) : List (String × String) :=
  upd.foldl (fun acc p => upsert acc p.1 p.2) base

/-- `VoiceTransformer._apply_formality`. -/
def applyFormality (content : String) (rule : ToneRule) : String :=
  let level := rule.level.getD "neutral"
  if level == "formal" then
    (dictUpdate formalContractions rule.patterns).foldl
      (fun c p => pyReplace c p.1 p.2) content
  else if level == "casual" then
    (dictUpdate casualExpansions rule.patterns).foldl
      (fun c p => ⟨reSubGuard false bGuardL bGuardR p.1.data p.2.data none c.data⟩) content
  else content

/-- `VoiceTransformer._apply_perspective`. -/
def applyPerspective (content : String) (rule : ToneRule) : String :=
  let perspective := rule.value.getD "third_person"
  let company := rule.company_name.getD "the company"
  if perspective == "third_person" then
    [("We", company), ("we", company), ("Our", company ++ "\x27s"),
     ("our", company ++ "\x27s"), ("Us", company), ("us", company)].foldl
      (fun c p => ⟨reSubGuard false alphaGuardL alphaGuardR p.1.data p.2.data none c.data⟩)
      content
  else if perspective == "first_person" then
    if company != "" && company != "the company" then
      [(company, "we"), (company ++ "\x27s", "our")].foldl
        (fun c p => ⟨reSubGuard true bGuardL bGuardR p.1.data p.2.data none c.data⟩) content
    else content
  else content

/-- `VoiceTransformer._apply_tone`. -/
def applyTone (content : String) (rules : List ToneRule) : String :=
  rules.foldl (fun c r =>
    if r.rtype == some "formality" then applyFormality c r
    else if r.rtype == some "perspective" then applyPerspective c r
    else c) content

/-- `VoiceTransformer.apply_voice`: lexicon, then terminology, then tone.
(The source's `if not voice_rules: return content` guard corresponds to the
callers' truthiness check on `voice.rules`, modelled by `Voice.rules` being
an `Option`.) -/
def applyVoice (content : String) (rules : VoiceRules) : String :=
  applyTone (applyTerminology (applyLexicon content rules.lexicon) rules.terminology)
    rules.tone_rules

/-! ## Section composer (services/story_model_composer.py)

Each concrete regular expression of the source is translated to an explicit
scanner.  The `\s+`/`\s*` pieces of the two `re.MULTILINE` patterns are
modelled within a single line (the source's `\s` could additionally swallow a
newline when a pattern's tail happens to continue on the next line). -/

/-- `StoryModelComposer._extract_full_content`. -/
def extractFullContent (elements : List Element) (instanceData : List (String × String)) :
    String :=
  let contentParts := elements.filterMap (fun element =>
    if element.content == "" then none
    else
      let content := element.content
      if !instanceData.isEmpty &&
          (strContains content "\x7bwho\x7d" || strContains content "\x7bwhat\x7d" ||
           strContains content "\x7bwhen\x7d" || strContains content "\x7bwhere\x7d" ||
           strContains content "\x7bwhy\x7d" || strContains content "\x7bquote") then
        some (instanceData.foldl (fun c p =>
          let placeholder := "\x7b" ++ p.1 ++ "\x7d"
          if strContains c placeholder then pyReplace c placeholder p.2 else c) content)
      else some content)
  String.intercalate "\n\n" contentParts

/-- `StoryModelComposer._extract_five_ws`.  (`lede_parts` is never empty, so
the source's trailing `if lede_parts else element_content` is the join.) -/
def extractFiveWs (elements : List Element) (instanceData : List (String × String)) : String :=
  let elementContent := match elements with | [] => "" | e :: _ => e.content
  if strContains elementContent "\x7bwho\x7d" || strContains elementContent "\x7bwhat\x7d" then
    instanceData.foldl (fun lede p => pyReplace lede ("\x7b" ++ p.1 ++ "\x7d") p.2)
      elementContent
  else
    let who := (alookup instanceData "who").getD "The company"
    let what := (alookup instanceData "what").getD "announces news"
    let whenV := (alookup instanceData "when").getD "today"
    let whereV := (alookup instanceData "where").getD ""
    let why := (alookup instanceData "why").getD ""
    let first :=
      if whereV != "" && whenV != "" then
        whereV ++ ", " ++ whenV ++ " — " ++ who ++ " " ++ what
      else if whenV != "" then whenV ++ " — " ++ who ++ " " ++ what
      else who ++ " " ++ what
    let ledeParts := [first] ++ (if why != "" then [" " ++ why] else [])
    String.intercalate "." ledeParts ++ "."

/-- First case-insensitive occurrence of `pat`; returns the suffix after it. -/
def ciSplitFirst (pat : List Char) : List Char → Option (List Char)
  | [] => if pat.isEmpty then some [] else none
  | c :: cs =>
    if ciPrefix pat (c :: cs) then some ((c :: cs).drop pat.length)
    else ciSplitFirst pat cs

/-- Group 1 of `re.search(r'\*\*Headline\*\*:\s*(.+?)(?:\n|$)', _, IGNORECASE)`
at the first label occurrence: skip the whitespace run, then take up to the
next newline.  When only whitespace follows, the backtracked group strips to
the empty string; when nothing (or only newlines) follows, there is no match. -/
def keyMessageHeadline (fullContent : List Char) : Option (List Char) :=
  match ciSplitFirst "**headline**:".data fullContent with
  | none => none
  | some rest =>
    match rest.dropWhile isPySpace with
    | [] => if rest.all (fun c => c == '\n') then none else some []
    | t => some (t.takeWhile (fun c => c != '\n'))

/-- Does `s` start with `\*\*[^*]+\*\*:` ? -/
def boldLabelStart (s : List Char) : Bool :=
  match s with
  | '*' :: '*' :: rest =>
    let nonstar := rest.takeWhile (fun c => c != '*')
    !nonstar.isEmpty && ((rest.drop nonstar.length).take 3 == ['*', '*', ':'])
  | _ => false

/-- `re.sub(r'\*\*[^*]+\*\*:.*$', '', s)`: cut from the first bold label to
the end. -/
def cutBoldLabelSuffix : List Char → List Char
  | [] => []
  | c :: cs => if boldLabelStart (c :: cs) then [] else c :: cutBoldLabelSuffix cs

/-- `re.sub(r'\*\*([^*]+)\*\*', r'\1', s)`: unwrap bold markers. -/
def stripBoldPairsF : Nat → List Char → List Char
  | _, [] => []
  | 0, s => s
  | fuel + 1, '*' :: '*' :: rest =>
    let inner := rest.takeWhile (fun c => c != '*')
    if !inner.isEmpty && ((rest.drop inner.length).take 2 == ['*', '*']) then
      inner ++ stripBoldPairsF fuel (rest.drop (inner.length + 2))
    else '*' :: stripBoldPairsF fuel ('*' :: rest)
  | fuel + 1, c :: cs => c :: stripBoldPairsF fuel cs

def stripBoldPairs (s : List Char) : List Char := stripBoldPairsF s.length s

/-- `re.split(r'\.\s+|\n\n', s)` (first fragment is all the caller uses). -/
def splitSentencesF (acc : List Char) : Nat → List Char → List (List Char)
  | _, [] => [acc.reverse]
  | 0, s => [acc.reverse ++ s]
  | fuel + 1, '.' :: c :: cs =>
    if isPySpace c then acc.reverse :: splitSentencesF [] fuel ((c :: cs).dropWhile isPySpace)
    else splitSentencesF ('.' :: acc) fuel (c :: cs)
  | fuel + 1, '\n' :: '\n' :: cs => acc.reverse :: splitSentencesF [] fuel cs
  | fuel + 1, c :: cs => splitSentencesF (c :: acc) fuel cs

def splitSentencesAux (acc s : List Char) : List (List Char) :=
  splitSentencesF acc s.length s

/-- `StoryModelComposer._extract_key_message`. -/
def extractKeyMessage (elements : List Element) (strategy : Strategy) : String :=
  match elements with
  | [] => ""
  | e :: _ =>
    let fullContent := e.content
    let headline :=
      match keyMessageHeadline fullContent.data with
      | some grp => pyStrip ⟨cutBoldLabelSuffix (pyStrip ⟨grp⟩).data⟩
      | none =>
        let sentences := splitSentencesAux [] fullContent.data
        let h := pyStrip ⟨sentences.headD []⟩
        ⟨stripBoldPairs h.data⟩
    let maxWords := strategy.max_words.getD 10
    let words := pySplitWs headline
    if words.length > maxWords then String.intercalate " " (words.take maxWords)
    else headline

/-- `StoryModelComposer._extract_structured_list`. -/
def extractStructuredList (elements : List Element) (strategy : Strategy) : String :=
  match elements with
  | [] => ""
  | _ =>
    let points := elements.foldl (fun pts element =>
      let paragraphs := pySplit element.content "\n\n"
      pts ++ paragraphs.filterMap (fun para =>
        let para := pyStrip para
        if para != "" && para.length > 10 then some para else none)) []
    let listFormat := strategy.format.getD "paragraph"
    if listFormat == "bullets" then
      String.intercalate "\n" (points.map (fun point => "• " ++ point))
    else if listFormat == "numbered" then
      String.intercalate "\n" (points.enum.map (fun p => toString (p.1 + 1) ++ ". " ++ p.2))
    else String.intercalate "\n\n" points

def pyLines (s : String) : List String := pySplit s "\n"

/-- One `re.MULTILINE` line-match of `^\d+\.\s+\*\*([^*]+)\*\*\s+[–—-]\s+(.+)$`. -/
def parseBoldListItem (line : List Char) : Option (List Char × List Char) :=
  let ds := line.takeWhile Char.isDigit
  if ds.isEmpty then none else
  match line.drop ds.length with
  | '.' :: rest =>
    let ws := rest.takeWhile isPySpace
    if ws.isEmpty then none else
    match rest.drop ws.length with
    | '*' :: '*' :: r2 =>
      let label := r2.takeWhile (fun c => c != '*')
      if label.isEmpty then none else
      (match r2.drop label.length with
      | '*' :: '*' :: r3 =>
        let ws2 := r3.takeWhile isPySpace
        if ws2.isEmpty then none else
        (match r3.drop ws2.length with
        | d :: r4 =>
          if d = '–' || d = '—' || d = '-' then
            let ws3 := r4.takeWhile isPySpace
            if ws3.isEmpty then none
            else
              let content := r4.drop ws3.length
              if content.isEmpty then none else some (label, content)
          else none
        | [] => none)
      | _ => none)
    | _ => none
  | _ => none

/-- One `re.MULTILINE` line-match of `^\d+\.\s+(.+)$`. -/
def parseSimpleListItem (line : List Char) : Option (List Char) :=
  let ds := line.takeWhile Char.isDigit
  if ds.isEmpty then none else
  match line.drop ds.length with
  | '.' :: rest =>
    let ws := rest.takeWhile isPySpace
    if ws.isEmpty then none
    else
      let content := rest.drop ws.length
      if content.isEmpty then none else some content
  | _ => none

/-- Length of a match of `\*\*([^*]+)\*\*\s+[–—-]\s+` starting right after an
initial `**` (which the caller has already seen). -/
def matchBoldDashLen (rest : List Char) : Option Nat :=
  let label := rest.takeWhile (fun c => c != '*')
  if label.isEmpty then none else
  match rest.drop label.length with
  | '*' :: '*' :: r3 =>
    let ws := r3.takeWhile isPySpace
    if ws.isEmpty then none else
    (match r3.drop ws.length with
    | d :: r4 =>
      if d = '–' || d = '—' || d = '-' then
        let ws2 := r4.takeWhile isPySpace
        if ws2.isEmpty then none
        else some (label.length + 2 + ws.length + 1 + ws2.length)
      else none
    | [] => none)
  | _ => none

/-- `re.sub(r'\*\*([^*]+)\*\*\s+[–—-]\s+', '', s)`. -/
def stripBoldDashPrefixF : Nat → List Char → List Char
  | _, [] => []
  | 0, s => s
  | fuel + 1, '*' :: '*' :: rest =>
    (match matchBoldDashLen rest with
    | some n => stripBoldDashPrefixF fuel (rest.drop n)
    | none => '*' :: stripBoldDashPrefixF fuel ('*' :: rest))
  | fuel + 1, c :: cs => c :: stripBoldDashPrefixF fuel cs

def stripBoldDashPrefix (s : List Char) : List Char := stripBoldDashPrefixF s.length s

/-- `StoryModelComposer._extract_quote`. -/
def extractQuote (elements : List Element) (instanceData : List (String × String))
    (strategy : Strategy) : String :=
  let qn := strategy.quote_number.getD 1
  let speaker := (alookup instanceData ("quote" ++ toString qn ++ "_speaker")).getD ""
  let title := (alookup instanceData ("quote" ++ toString qn ++ "_title")).getD ""
  let qc0 := (alookup instanceData ("quote" ++ toString qn ++ "_content")).getD ""
  let quoteContent :=
    match elements with
    | element :: _ =>
      if qc0 == "" then
        let c := pyStrip (pyReplace element.content "\x7bquote\x7d" "")
        let listItems := (pyLines c).filterMap (fun l => parseBoldListItem l.data)
        if !listItems.isEmpty then
          let idx := (((qn : Int) - 1).emod listItems.length).toNat
          pyStrip ⟨(listItems.getD idx ([], [])).2⟩
        else
          let simpleList := (pyLines c).filterMap (fun l => parseSimpleListItem l.data)
          if !simpleList.isEmpty && simpleList.length > 1 then
            let idx := (((qn : Int) - 1).emod simpleList.length).toNat
            let c2 := pyStrip ⟨simpleList.getD idx []⟩
            ⟨stripBoldDashPrefix c2.data⟩
          else c
      else qc0
    | [] => qc0
  if speaker != "" && title != "" then
    "\"" ++ quoteContent ++ "\"\n— " ++ speaker ++ ", " ++ title
  else if speaker != "" then "\"" ++ quoteContent ++ "\"\n— " ++ speaker
  else "\"" ++ quoteContent ++ "\""

def kmMarker : List Char := "Key Message ".data

/-- `re.split(r'(?=Key Message \d+)', content)`: cut before each occurrence
of the marker followed by a digit. -/
def splitBeforeKeyMessage (acc : List Char) : List Char → List (List Char)
  | [] => [acc.reverse]
  | c :: cs =>
    if kmMarker.isPrefixOf (c :: cs) &&
        (match (c :: cs).drop kmMarker.length with | d :: _ => d.isDigit | [] => false) then
      acc.reverse :: splitBeforeKeyMessage [c] cs
    else splitBeforeKeyMessage (c :: acc) cs

/-- First line of `block` matching `^field:\s*(.+)$` (IGNORECASE), stripped. -/
def fieldLineValue (fieldPath : String) (block : String) : Option String :=
  (pyLines block).findSome? (fun line =>
    let lc := line.data
    if ciPrefix (fieldPath.data ++ [':']) lc then
      let rest := (lc.drop (fieldPath.length + 1)).dropWhile isPySpace
      if rest.isEmpty then none else some (pyStrip ⟨rest⟩)
    else none)

/-- `StoryModelComposer._extract_field_from_element`. -/
def extractFieldFromElement (elements : List Element) (strategy : Strategy) : String :=
  match elements with
  | [] => ""
  | element :: _ =>
    let fieldPath := strategy.field_path.getD "headline"
    let selectionCount := strategy.selection_count.getD 1
    let blocks := ((splitBeforeKeyMessage [] element.content.data).map
      (fun b => pyStrip ⟨b⟩)).filter (fun b => b != "")
    let extracted := blocks.foldl (fun acc block =>
      if acc.length ≥ selectionCount then acc
      else match fieldLineValue fieldPath block with
        | some v => acc ++ [v]
        | none => acc) []
    if extracted.isEmpty then ""
    else if selectionCount == 1 then extracted.headD ""
    else String.intercalate "\n" (extracted.map (fun value => "- " ++ value))

/-- `StoryModelComposer._compose_from_instance_data`. -/
def composeFromInstanceData (instanceData : List (String × String)) (strategy : Strategy) :
    String :=
  let instanceFields := strategy.instance_fields.getD []
  if instanceFields.isEmpty then ""
  else
    let values := instanceFields.foldl
      (fun vals f => upsert vals f ((alookup instanceData f).getD "")) []
    match instanceFields.filter (fun f => f.endsWith "_text") with
    | quoteTextField :: _ =>
      let speakerField := pyReplace quoteTextField "_text" "_speaker"
      let titleField := pyReplace quoteTextField "_text" "_title"
      let quoteText := (alookup values quoteTextField).getD ""
      let speaker := (alookup values speakerField).getD ""
      let title := (alookup values titleField).getD ""
      if quoteText == "" then ""
      else
        String.intercalate "" (["\"" ++ quoteText ++ "\""] ++
          (if speaker != "" && title != "" then ["\n\n— " ++ speaker ++ ", " ++ title]
           else if speaker != "" then ["\n\n— " ++ speaker]
           else []))
    | [] => String.intercalate "\n" ((values.map (·.2)).filter (fun v => v != ""))

/-- `StoryModelComposer._compose_with_llm` (despite its name, a fixed
template-based heuristic — the source's LLM call is a TODO). -/
def composeWithLlm (elements : List Element) (instanceData : List (String × String))
    (strategy : Strategy) : String :=
  let sources := strategy.composition_sources.getD []
  if sources.isEmpty then ""
  else
    let context := sources.foldl (fun ctx source =>
      if source.startsWith "instance_data." then
        let fieldName := pyReplace source "instance_data." ""
        upsert ctx fieldName ((alookup instanceData fieldName).getD "")
      else if source.startsWith "element." then
        let elementName := pyReplace source "element." ""
        match elements.filter (fun e => e.name == elementName) with
        | e :: _ => upsert ctx elementName e.content
        | [] => ctx
      else ctx) []
    if ["who", "what", "when", "where", "why"].all (fun k => (alookup context k).isSome) then
      let who := (alookup context "who").getD ""
      let what := (alookup context "what").getD ""
      let whenV := (alookup context "when").getD ""
      let whereV := (alookup context "where").getD ""
      let why := (alookup context "why").getD ""
      let vision := (alookup context "Vision Statement").getD ""
      let p0 :=
        if whereV != "" && whenV != "" then
          whereV ++ ", " ++ whenV ++ " — " ++ who ++ " " ++ what
        else if whenV != "" then whenV ++ " — " ++ who ++ " " ++ what
        else who ++ " " ++ what
      let p0 := (if why != "" then p0 ++ " " ++ why else p0) ++ "."
      String.intercalate " " ([p0] ++ (if vision != "" then ["\n\n" ++ vision] else []))
    else String.intercalate "\n\n" ((context.map (·.2)).filter (fun v => v != ""))

/-- `StoryModelComposer.compose_section`: string-keyed strategy dispatch with
`full_content` as the fallback.  (`section_name` is accepted and ignored, as
in the source.) -/
def composeSection (sectionName : String) (sectionStrategy : Strategy)
    (boundElements : List Element) (instanceData : List (String × String)) : String :=
  let strategy := sectionStrategy.extraction_strategy.getD "full_content"
  if strategy == "field_extraction" then extractFieldFromElement boundElements sectionStrategy
  else if strategy == "instance_data" then composeFromInstanceData instanceData sectionStrategy
  else if strategy == "composed" then composeWithLlm boundElements instanceData sectionStrategy
  else if strategy == "key_message" then extractKeyMessage boundElements sectionStrategy
  else if strategy == "five_ws" then extractFiveWs boundElements instanceData
  else if strategy == "structured_list" then extractStructuredList boundElements sectionStrategy
  else if strategy == "quote" then extractQuote boundElements instanceData sectionStrategy
  else if strategy == "full_content" then extractFullContent boundElements instanceData
  else if !boundElements.isEmpty then extractFullContent boundElements instanceData
  else ""

/-! ## Element lineage manager (services/unf_service.py) -/

inductive ApproveOutcome where
  | ok
  | errNotFound
  /-- `ValueError("Element is already {status}")`. -/
  | errInvalidState (status : ElementStatus)
deriving DecidableEq, Repr

def setElementStatus (st : Store) (id : Nat) (status : ElementStatus) : Store :=
  { st with elements := st.elements.map (fun e =>
      if e.id == id then { e with status := status } else e) }

/-- `UNFService.approve_element` (unf_service.py:170-210).  The scan for a
currently-approved sibling matches on `name` alone — the element's layer is
not consulted — over `list_elements()` (newest-first); the first hit is
superseded, then the draft is approved. -/
def approveElement (st : Store) (id : Nat) : Store × ApproveOutcome :=
  match getElement st id with
  | none => (st, .errNotFound)
  | some element =>
    if element.status != .draft then (st, .errInvalidState element.status)
    else
      let existingApproved := st.elements.find? (fun e =>
        e.name == element.name && e.status == .approved && e.id != id)
      let st1 := match existingApproved with
        | some ex => setElementStatus st ex.id .superseded
        | none => st
      (setElementStatus st1 id .approved, .ok)

/-! ## Dependency tracker (services/relationship_service.py) -/

/-- `PostgresRelationshipService.track_element_usage`: resolve the template
from the deliverable row, then insert the (element, template, deliverable)
edge; the duplicate-key error on an existing edge is swallowed, so the write
is an idempotent upsert. -/
def trackElementUsage (st : Store) (elementId deliverableId : Nat) : Store :=
  match getDeliverableRow st deliverableId with
  | none => st
  | some d =>
    let edge := (elementId, d.template_id, deliverableId)
    if st.elementDependencies.contains edge then st
    else { st with elementDependencies := st.elementDependencies ++ [edge] }

/-! ## Deliverable orchestrator (services/deliverable_service.py) -/

/-- `DeliverableService._check_for_updates` (deliverable_service.py:371-424):
for each pinned element, scan all elements sharing its `name` (any layer)
that are strictly newer by `isNewerVersion`; approved ones yield
`update_available` alerts, drafts `update_pending`. -/
def checkForUpdates (st : Store) (d : DeliverableRow) : List ImpactAlert :=
  d.element_versions.bind (fun p =>
    match getElement st p.1 with
    | none => []
    | some used =>
      let newer := st.elements.filter (fun e =>
        e.name == used.name && e.id != used.id && isNewerVersion e.version p.2)
      let mk := fun (status : String) (e : Element) =>
        { element_id := p.1, element_name := used.name, old_version := p.2,
          new_version := e.version, status := status : ImpactAlert }
      (newer.filter (fun e => e.status == .approved)).map (mk "update_available") ++
        (newer.filter (fun e => e.status == .draft)).map (mk "update_pending"))

/-- Strategy lookup shared by `_assemble_section_content` and
`refresh_deliverable`: the section's entry in the story model's
`section_strategies`, or `{'extraction_strategy': 'full_content'}` when the
model is absent or the entry is missing/empty. -/
def strategyFor (sm? : Option StoryModel) (sectionName : String) : Strategy :=
  let s := match sm? with
    | some sm => (alookup sm.section_strategies sectionName).getD {}
    | none => {}
  if s == ({} : Strategy) then { extraction_strategy := some "full_content" } else s

/-- The note `_assemble_section_content` records for every transformed
section: its LLM branch dereferences the unbound name `template`
(deliverable_service.py:280) inside the `try`-block, so it always raises
`NameError` and lands in the `except` fallback. -/
def llmFailureNote : String :=
  "LLM transformation failed: name \x27template\x27 is not defined"

/-- `DeliverableService._assemble_section_content` (deliverable_service.py:
212-305): keep only approved bound elements, compose, then — via the
`NameError` fallback described at `llmFailureNote` — apply the regex
transformer when `voice.rules` is truthy and record the failure note.
`voice?` is `none` when `get_voice` returned `None` (the source only
dereferences the voice after this call). -/
def assembleSectionContent (st : Store) (binding : SectionBinding)
    (instanceData : List (String × String)) (sm? : Option StoryModel)
    (voice? : Option Voice) : String × String :=
  let boundElements := binding.element_ids.filterMap (fun eid =>
    match getElement st eid with
    | some e => if e.status == .approved then some e else none
    | none => none)
  let strat := strategyFor sm? binding.section_name
  let assembled := composeSection binding.section_name strat boundElements instanceData
  match voice? with
  | some voice =>
    if assembled != "" then
      (match voice.rules with
       | some rules => applyVoice assembled rules
       | none => assembled,
       llmFailureNote)
    else (assembled, "")
  | none => (assembled, "")

inductive CreateOutcome where
  | ok (id : Nat)
  /-- `ValueError("Template ... not found")`. -/
  | errTemplateNotFound
  /-- `AttributeError` at `voice.version` (deliverable_service.py:184). -/
  | errVoiceNotFound
deriving DecidableEq, Repr

/-- `DeliverableService.create_deliverable` (deliverable_service.py:121-210),
up to the final `validate_deliverable` call: that call rewrites only the new
row's `validation_log`, from the wall clock and the external LLM classifier
(both external collaborators), and is not modelled — no embedded property
reads the log. -/
def createDeliverable (st : Store) (cd : DeliverableCreate) : Store × CreateOutcome :=
  match getTemplate st cd.template_id with
  | none => (st, .errTemplateNotFound)
  | some template =>
    let sm? := getStoryModel st template.story_model_id
    let voiceId := cd.voice_id.getD template.default_voice_id
    match getVoice st voiceId with
    | none => (st, .errVoiceNotFound)
    | some voice =>
      let acc := template.section_bindings.foldl
        (fun (acc : List (String × RenderedValue) × List (String × String) ×
            List (Nat × String)) binding =>
          let (sectionContent, sectionNotes) :=
            assembleSectionContent st binding cd.instance_data sm? (some voice)
          let rendered := upsert acc.1 binding.section_name (RenderedValue.s sectionContent)
          let tnotes := if sectionNotes != "" then
              upsert acc.2.1 binding.section_name sectionNotes
            else acc.2.1
          let ev := binding.element_ids.foldl (fun ev eid =>
            match getElement st eid with
            | some e => upsert ev eid e.version
            | none => ev) acc.2.2
          (rendered, tnotes, ev)) ([], [], [])
      let (renderedContent, transformationNotes, elementVersions) := acc
      let metadata1 := if transformationNotes != [] then
          upsert cd.metadata "transformation_notes" (MetaVal.map transformationNotes)
        else cd.metadata
      let metadata2 := upsert metadata1 "transformation_metadata"
        (MetaVal.map [("method", "llm"), ("transformer", "voice_transformer_llm")])
      let newRow : DeliverableRow := {
        id := st.nextId, name := cd.name, template_id := template.id,
        template_version := template.version, story_model_id := template.story_model_id,
        voice_id := voiceId, voice_version := voice.version,
        instance_data := cd.instance_data, status := cd.status, version := 1,
        prev_deliverable_id := none, element_versions := elementVersions,
        rendered_content := renderedContent, validation_log := [], metadata := metadata2 }
      let st1 := { st with deliverables := newRow :: st.deliverables, nextId := st.nextId + 1 }
      (elementVersions.foldl (fun s p => trackElementUsage s p.1 newRow.id) st1,
       .ok newRow.id)

inductive UpdateOutcome where
  | ok (newId : Nat)
  /-- The final `get_deliverable` read-back raises a pydantic validation
  error: the freshly inserted row's `rendered_content` holds 2-tuples where
  the `Deliverable` model demands `Dict[str, str]`.  The new row, the
  supersession of the old one and the dependency edges are already committed
  when this is raised. -/
  | errReadBack (newId : Nat)
  | errNotFound
  /-- `ValueError` for a NULL/empty stored name (data-integrity check). -/
  | errNullName
  /-- `ValueError("When changing story_model_id, you must also provide a
  template_id ...")` — always hit for a story-model patch, because
  `DeliverableUpdate` has no `template_id` field. -/
  | errStoryModelNeedsTemplate
  | errVoiceNotFound
  | errStoryModelNotFound
  /-- `AttributeError` at `template.version` when the stored template id
  resolves to nothing. -/
  | errTemplateNotFound
deriving DecidableEq, Repr

/-- Does a stored row survive `get_deliverable`'s pydantic parse?
(`rendered_content: Dict[str, str]` rejects tuple values.) -/
def rowParses (r : DeliverableRow) : Bool :=
  r.rendered_content.all (fun p => match p.2 with | .s _ => true | .pair _ _ => false)

/-- Insert-supersede-track tail of `update_deliverable`
(deliverable_service.py:586-608): insert the new version, mark the old row
superseded, track element dependencies when content was re-rendered, and
read the new row back. -/
def finishUpdate (st : Store) (oldId : Nat) (newRow : DeliverableRow) (trackDeps : Bool) :
    Store × UpdateOutcome :=
  let st1 := { st with deliverables := newRow :: st.deliverables, nextId := st.nextId + 1 }
  let st2 := { st1 with deliverables := st1.deliverables.map (fun r =>
      if r.id == oldId then { r with status := .superseded } else r) }
  let st3 := if trackDeps then
      newRow.element_versions.foldl (fun s p => trackElementUsage s p.1 newRow.id) st2
    else st2
  (st3, if rowParses newRow then .ok newRow.id else .errReadBack newRow.id)

/-- The `new_deliverable_data` dict of `update_deliverable`
(deliverable_service.py:512-527): every existing field copied, the patch
applied on top, version incremented and the back-reference set.
(`data.get('template_id', …)` and `data.get('story_model_id', …)` always
fall through to the stored values here: the patch model has no template
field, and a story-model patch has already been rejected.) -/
def updateBaseRow (st : Store) (deliverable : DeliverableRow) (upd : DeliverableUpdate) :
    DeliverableRow := {
  id := st.nextId,
  name := upd.name.getD deliverable.name,
  template_id := deliverable.template_id,
  template_version := deliverable.template_version,
  story_model_id := deliverable.story_model_id,
  voice_id := upd.voice_id.getD deliverable.voice_id,
  voice_version := deliverable.voice_version,
  instance_data := upd.instance_data.getD deliverable.instance_data,
  status := upd.status.getD deliverable.status,
  version := deliverable.version + 1,
  prev_deliverable_id := some deliverable.id,
  element_versions := deliverable.element_versions,
  rendered_content := deliverable.rendered_content,
  validation_log := deliverable.validation_log,
  metadata := upd.metadata.getD deliverable.metadata }

/-- `DeliverableService.update_deliverable` (deliverable_service.py:447-608).
Every successful call builds a new row at `version + 1` with
`prev_deliverable_id` pointing at the old row, inserts it and supersedes the
old row; a patch touching `voice_id`/`instance_data` additionally re-renders
content (`template_id` cannot appear in a patch, and a `story_model_id`
patch is rejected up front). -/
def updateDeliverable (st : Store) (deliverableId : Nat) (upd : DeliverableUpdate) :
    Store × UpdateOutcome :=
  match getDeliverableRow st deliverableId with
  | none => (st, .errNotFound)
  | some deliverable =>
    if deliverable.name == "" then (st, .errNullName)
    else if upd.story_model_id.isSome then (st, .errStoryModelNeedsTemplate)
    else
      let needsRerender := upd.voice_id.isSome || upd.instance_data.isSome ||
        upd.story_model_id.isSome
      let base := updateBaseRow st deliverable upd
      if needsRerender then
        match getTemplate st base.template_id with
        | none => (st, .errTemplateNotFound)
        | some template =>
          match getVoice st base.voice_id with
          | none => (st, .errVoiceNotFound)
          | some voice =>
            match getStoryModel st base.story_model_id with
            | none => (st, .errStoryModelNotFound)
            | some storyModel =>
              let acc := template.section_bindings.foldl
                (fun (acc : List (String × RenderedValue) × List (Nat × String)) binding =>
                  let sectionContent := assembleSectionContent st binding
                    base.instance_data (some storyModel) (some voice)
                  (upsert acc.1 binding.section_name
                     (RenderedValue.pair sectionContent.1 sectionContent.2),
                   binding.element_ids.foldl (fun ev eid =>
                     match getElement st eid with
                     | some e => upsert ev eid e.version
                     | none => ev) acc.2)) ([], [])
              let newRow : DeliverableRow :=
                { base with
                  template_version := template.version
                  rendered_content := acc.1
                  voice_version := voice.version
                  element_versions := acc.2 }
              finishUpdate st deliverableId newRow true
      else finishUpdate st deliverableId base false

inductive RefreshOutcome where
  | ok
  | errNotFound
  /-- `ValueError("Cannot refresh deliverable: {count} element(s) have draft
  updates that must be approved first: {names joined by ', '}. Use force=True
  to override (not recommended).")`. -/
  | errBlocked (count : Nat) (names : List String)
  /-- `AttributeError` at `template.section_bindings`. -/
  | errTemplateNotFound
  /-- `AttributeError` at `voice.version` (deliverable_service.py:714). -/
  | errVoiceNotFound
deriving DecidableEq, Repr

/-- The "latest approved by name" scan of `refresh_deliverable`
(deliverable_service.py:666-679): the maximum over approved elements sharing
the name is taken with Python string `>` on the version text, seeded with
"0.0". -/
def latestApprovedByName (elements : List Element) (name : String) : Option Element :=
  (elements.foldl (fun (acc : Option Element × String) elem =>
    if elem.name == name && elem.status == .approved && pyStrGt elem.version acc.2 then
      (some elem, elem.version)
    else acc) (none, "0.0")).1

/-- The compose-and-pin loop of `refresh_deliverable` (deliverable_service.py:
656-708): per binding, resolve each bound element's latest approved same-name
element, pin it under its own id, recompose, and apply the regex voice
transformation when the voice has truthy `rules`. -/
def refreshCore (elements : List Element) (template : Template) (sm? : Option StoryModel)
    (voice? : Option Voice) (instanceData : List (String × String)) :
    List (Nat × String) × List (String × String) :=
  template.section_bindings.foldl (fun acc binding =>
    let step := binding.element_ids.foldl
      (fun (latest : List Element × List (Nat × String)) eid =>
        match elements.find? (fun e => e.id == eid) with
        | none => latest
        | some oldElement =>
          match latestApprovedByName elements oldElement.name with
          | some la => (latest.1 ++ [la], upsert latest.2 la.id la.version)
          | none => latest) ([], acc.1)
    let rendered :=
      if !step.1.isEmpty then
        let strat := strategyFor sm? binding.section_name
        let c := composeSection binding.section_name strat step.1 instanceData
        match voice? with
        | some v => (match v.rules with | some rules => applyVoice c rules | none => c)
        | none => c
      else ""
    (step.2, upsert acc.2 binding.section_name rendered)) ([], [])

/-- Success tail of `refresh_deliverable` (deliverable_service.py:710-726):
overwrite `element_versions`, `rendered_content` (string values) and
`voice_version` on the row, then upsert a dependency edge per pinned
element. -/
def refreshApplyStore (st : Store) (deliverableId : Nat) (deliverable : DeliverableRow)
    (template : Template) (voice : Voice) : Store :=
  let evrc := refreshCore st.elements template (getStoryModel st deliverable.story_model_id)
    (some voice) deliverable.instance_data
  let st1 := { st with deliverables := st.deliverables.map (fun r =>
    if r.id == deliverableId then
      { r with element_versions := evrc.1,
               rendered_content := evrc.2.map (fun q => (q.1, RenderedValue.s q.2)),
               voice_version := voice.version }
    else r) }
  evrc.1.foldl (fun s p => trackElementUsage s p.1 deliverableId) st1

/-- `DeliverableService.refresh_deliverable` (deliverable_service.py:610-726):
unless forced, any `update_pending` alert blocks the refresh before anything
is written; otherwise the pinned versions and rendered content are
recomputed by `refreshCore` and overwritten on the same row (together with
`voice_version`), and dependency edges are upserted.  (The source runs the
compose loop before the missing-voice `AttributeError` at `voice.version`;
the loop is pure, so erroring before it is equivalent.) -/
def refreshDeliverable (st : Store) (deliverableId : Nat) (force : Bool) :
    Store × RefreshOutcome :=
  match getDeliverableRow st deliverableId with
  | none => (st, .errNotFound)
  | some deliverable =>
    let draftAlerts :=
      (checkForUpdates st deliverable).filter (fun a => a.status == "update_pending")
    if !force && !draftAlerts.isEmpty then
      (st, .errBlocked draftAlerts.length (draftAlerts.map (fun a => a.element_name)))
    else
      match getTemplate st deliverable.template_id with
      | none => (st, .errTemplateNotFound)
      | some template =>
        match getVoice st deliverable.voice_id with
        | none => (st, .errVoiceNotFound)
        | some voice =>
          (refreshApplyStore st deliverableId deliverable template voice, .ok)

/-- The field rewrite `refresh_deliverable` applies to the target row. -/
def refreshRowUpdate (st : Store) (d : DeliverableRow) (template : Template) (voice : Voice)
    (r : DeliverableRow) : DeliverableRow :=
  let evrc := refreshCore st.elements template (getStoryModel st d.story_model_id)
    (some voice) d.instance_data
  { r with element_versions := evrc.1,
           rendered_content := evrc.2.map (fun q => (q.1, RenderedValue.s q.2)),
           voice_version := voice.version }

/-! ## Concrete example inputs used by the witnesses and counterexamples -/

def c8Strategy : Strategy := { extraction_strategy := some "five_ws" }

def c8InstanceData : List (String × String) :=
  [("who", "Acme"), ("what", "ships v2"), ("when", "today")]

def c8Element : Element :=
  { id := 1, layer_id := 1, name := "Boilerplate", content := "Some boilerplate.",
    version := "1.0", status := .approved, prev_element_id := none, metadata := [] }

/-- The approved element "X" at "1.0" of the example stores. -/
def elemX10 : Element :=
  { id := 1, layer_id := 1, name := "X", content := "Hello", version := "1.0",
    status := .approved, prev_element_id := none, metadata := [] }

/-- The example deliverable row: pins element 1 at "1.0", voice snapshot
"1.0". -/
def rowD : DeliverableRow :=
  { id := 10, name := "D", template_id := 20, template_version := "1",
    story_model_id := 40, voice_id := 30, voice_version := "1.0", instance_data := [],
    status := .draft, version := 1, prev_deliverable_id := none,
    element_versions := [(1, "1.0")], rendered_content := [("Body", .s "Hello")],
    validation_log := [], metadata := [] }

/-- The example template: one "Body" section bound to element 1. -/
def templT : Template :=
  { id := 20, name := "T", version := "1", story_model_id := 40, default_voice_id := 30,
    section_bindings := [{ section_name := "Body", element_ids := [1] }] }

/-- The example voice: its row version "2.0" is ahead of the deliverable's
snapshot. -/
def voiceV : Voice := { id := 30, version := "2.0", rules := none }

/-- One approved element, one deliverable pinned to it; the voice row is at
version "2.0" while the deliverable snapshot says "1.0". -/
def storeA : Store :=
  { elements := [elemX10], deliverables := [rowD], templates := [templT],
    voices := [voiceV], storyModels := [], elementDependencies := [], nextId := 100 }

/-- A newer draft "1.1" in the pinned element's lineage. -/
def draftX11 : Element :=
  { id := 2, layer_id := 1, name := "X", content := "Newer", version := "1.1",
    status := .draft, prev_element_id := some 1, metadata := [] }

/-- `storeA` plus a newer draft "1.1" of the pinned element's lineage. -/
def storeB : Store :=
  { storeA with elements := draftX11 :: storeA.elements }

/-- The C2 failing input: the referenced lineage (layer 1, name "X") is
approved at "1.10"; a second lineage in layer 2 shares the name and is
approved at "1.9"; the deliverable pins the layer-1 element. -/
def elemX110 : Element :=
  { id := 1, layer_id := 1, name := "X", content := "Layer-one content",
    version := "1.10", status := .approved, prev_element_id := none, metadata := [] }

def elemOtherLayerX19 : Element :=
  { id := 3, layer_id := 2, name := "X", content := "Other-layer content",
    version := "1.9", status := .approved, prev_element_id := none, metadata := [] }

def c2Store : Store :=
  { storeA with
    elements := [elemX110, elemOtherLayerX19],
    deliverables := [{ rowD with element_versions := [(1, "1.10")] }] }

def sm40 : StoryModel := { id := 40, section_strategies := [] }

/-- `storeA` with the story model present (needed by the re-render path). -/
def storeD : Store := { storeA with storyModels := [sm40] }

/-- A draft "X" in layer 2 next to `storeA`'s approved "X" in layer 1. -/
def elemOtherLayerDraft : Element :=
  { id := 3, layer_id := 2, name := "X", content := "Other layer draft", version := "1.0",
    status := .draft, prev_element_id := none, metadata := [] }

def c4Store : Store := { storeA with elements := [elemOtherLayerDraft, elemX10] }

/-! ## Infrastructure lemmas -/

theorem find?_map_keyed {α : Type} (key : α → Nat) (id : Nat) (f : α → α)
    (hf : ∀ r, key (f r) = key r) (l : List α) :
    (l.map (fun r => if key r == id then f r else r)).find? (fun r => key r == id)
      = (l.find? (fun r => key r == id)).map f := by
  induction l with
  | nil => rfl
  | cons a t ih =>
    simp only [List.map_cons]
    cases hb : (key a == id) with
    | true =>
      have hfa : (key (f a) == id) = true := by rw [hf]; exact hb
      rw [if_pos rfl, List.find?_cons, List.find?_cons, hb, hfa]
      rfl
    | false =>
      rw [if_neg (by simp [hb]), List.find?_cons, List.find?_cons, hb]
      exact ih

theorem find?_map_keyed_ne {α : Type} (key : α → Nat) (id id' : Nat) (hne : id' ≠ id)
    (f : α → α) (hf : ∀ r, key (f r) = key r) (l : List α) :
    (l.map (fun r => if key r == id then f r else r)).find? (fun r => key r == id')
      = l.find? (fun r => key r == id') := by
  induction l with
  | nil => rfl
  | cons a t ih =>
    simp only [List.map_cons]
    cases hb : (key a == id) with
    | true =>
      have ha : key a = id := by simpa using hb
      have hfa : (key (f a) == id') = false := by
        simp only [hf, ha]
        exact beq_eq_false_iff_ne.mpr fun hx => hne hx.symm
      have hap : (key a == id') = false := by
        simp only [ha]
        exact beq_eq_false_iff_ne.mpr fun hx => hne hx.symm
      rw [if_pos rfl, List.find?_cons, List.find?_cons, hfa, hap]
      exact ih
    | false =>
      rw [if_neg (by simp [hb]), List.find?_cons, List.find?_cons]
      cases hb2 : (key a == id') with
      | true => rfl
      | false => exact ih

theorem mem_upsert {α β : Type} [BEq α] [LawfulBEq α] {l : List (α × β)} {k : α} {v : β} :
    ∀ kv ∈ upsert l k v, kv ∈ l ∨ (kv.1 = k ∧ kv.2 = v) := by
  induction l with
  | nil => intro kv h; simp only [upsert, List.mem_singleton] at h; subst h; right; exact ⟨rfl, rfl⟩
  | cons a t ih =>
    intro kv h
    simp only [upsert] at h
    by_cases hk : (a.1 == k) = true
    · rw [if_pos hk] at h
      rcases List.mem_cons.mp h with h1 | h2
      · right; subst h1; exact ⟨eq_of_beq hk, rfl⟩
      · left; exact List.mem_cons_of_mem _ h2
    · rw [if_neg hk] at h
      rcases List.mem_cons.mp h with h1 | h2
      · left; subst h1; exact List.mem_cons_self _ _
      · rcases ih kv h2 with h3 | h3
        · left; exact List.mem_cons_of_mem _ h3
        · right; exact h3

theorem trackElementUsage_elements (st : Store) (e d : Nat) :
    (trackElementUsage st e d).elements = st.elements := by
  unfold trackElementUsage
  cases getDeliverableRow st d <;> simp only [] <;> split <;> rfl

theorem trackElementUsage_deliverables (st : Store) (e d : Nat) :
    (trackElementUsage st e d).deliverables = st.deliverables := by
  unfold trackElementUsage
  cases getDeliverableRow st d <;> simp only [] <;> split <;> rfl

theorem trackElementUsage_templates (st : Store) (e d : Nat) :
    (trackElementUsage st e d).templates = st.templates := by
  unfold trackElementUsage
  cases getDeliverableRow st d <;> simp only [] <;> split <;> rfl

theorem trackElementUsage_voices (st : Store) (e d : Nat) :
    (trackElementUsage st e d).voices = st.voices := by
  unfold trackElementUsage
  cases getDeliverableRow st d <;> simp only [] <;> split <;> rfl

theorem trackElementUsage_storyModels (st : Store) (e d : Nat) :
    (trackElementUsage st e d).storyModels = st.storyModels := by
  unfold trackElementUsage
  cases getDeliverableRow st d <;> simp only [] <;> split <;> rfl

theorem trackFold_elements (did : Nat) (l : List (Nat × String)) (st : Store) :
    (l.foldl (fun s p => trackElementUsage s p.1 did) st).elements = st.elements := by
  induction l generalizing st with
  | nil => rfl
  | cons a t ih => rw [List.foldl_cons, ih, trackElementUsage_elements]

theorem trackFold_deliverables (did : Nat) (l : List (Nat × String)) (st : Store) :
    (l.foldl (fun s p => trackElementUsage s p.1 did) st).deliverables = st.deliverables := by
  induction l generalizing st with
  | nil => rfl
  | cons a t ih => rw [List.foldl_cons, ih, trackElementUsage_deliverables]

theorem trackFold_templates (did : Nat) (l : List (Nat × String)) (st : Store) :
    (l.foldl (fun s p => trackElementUsage s p.1 did) st).templates = st.templates := by
  induction l generalizing st with
  | nil => rfl
  | cons a t ih => rw [List.foldl_cons, ih, trackElementUsage_templates]

theorem trackFold_voices (did : Nat) (l : List (Nat × String)) (st : Store) :
    (l.foldl (fun s p => trackElementUsage s p.1 did) st).voices = st.voices := by
  induction l generalizing st with
  | nil => rfl
  | cons a t ih => rw [List.foldl_cons, ih, trackElementUsage_voices]

theorem trackFold_storyModels (did : Nat) (l : List (Nat × String)) (st : Store) :
    (l.foldl (fun s p => trackElementUsage s p.1 did) st).storyModels = st.storyModels := by
  induction l generalizing st with
  | nil => rfl
  | cons a t ih => rw [List.foldl_cons, ih, trackElementUsage_storyModels]

theorem refreshApply_elements (st : Store) (id : Nat) (d : DeliverableRow)
    (t : Template) (v : Voice) : (refreshApplyStore st id d t v).elements = st.elements := by
  unfold refreshApplyStore
  rw [trackFold_elements]

theorem refreshApply_templates (st : Store) (id : Nat) (d : DeliverableRow)
    (t : Template) (v : Voice) : (refreshApplyStore st id d t v).templates = st.templates := by
  unfold refreshApplyStore
  rw [trackFold_templates]

theorem refreshApply_voices (st : Store) (id : Nat) (d : DeliverableRow)
    (t : Template) (v : Voice) : (refreshApplyStore st id d t v).voices = st.voices := by
  unfold refreshApplyStore
  rw [trackFold_voices]

theorem refreshApply_storyModels (st : Store) (id : Nat) (d : DeliverableRow)
    (t : Template) (v : Voice) :
    (refreshApplyStore st id d t v).storyModels = st.storyModels := by
  unfold refreshApplyStore
  rw [trackFold_storyModels]

theorem refreshApply_row (st : Store) (id : Nat) (d : DeliverableRow)
    (t : Template) (v : Voice) :
    getDeliverableRow (refreshApplyStore st id d t v) id =
      (getDeliverableRow st id).map (refreshRowUpdate st d t v) := by
  unfold refreshApplyStore getDeliverableRow refreshRowUpdate
  rw [trackFold_deliverables]
  dsimp only
  exact find?_map_keyed (fun r => r.id) id
    (fun r =>
      { r with
        element_versions :=
          (refreshCore st.elements t (getStoryModel st d.story_model_id) (some v)
            d.instance_data).1
        rendered_content :=
          (refreshCore st.elements t (getStoryModel st d.story_model_id) (some v)
            d.instance_data).2.map (fun q => (q.1, RenderedValue.s q.2))
        voice_version := v.version })
    (fun r => rfl) st.deliverables

theorem refresh_ok_elim {st st' : Store} {id : Nat} {force : Bool}
    (h : refreshDeliverable st id force = (st', .ok)) :
    ∃ d template voice,
      getDeliverableRow st id = some d ∧
      getTemplate st d.template_id = some template ∧
      getVoice st d.voice_id = some voice ∧
      st' = refreshApplyStore st id d template voice := by
  unfold refreshDeliverable at h
  cases hd : getDeliverableRow st id <;> rw [hd] at h
  · simp at h
  · rename_i d
    dsimp only at h
    split at h
    · simp at h
    · cases ht : getTemplate st d.template_id <;> rw [ht] at h
      · simp at h
      · rename_i template
        cases hv : getVoice st d.voice_id <;> rw [hv] at h
        · simp at h
        · rename_i voice
          simp only [Prod.mk.injEq] at h
          exact ⟨d, template, voice, rfl, ht, hv, h.1.symm⟩

/-- `pyListGt` is exactly Mathlib's strict lexicographic order on integer
lists (flipped): Python's `parts_a > parts_b`. -/
theorem pyListGt_iff_lex : ∀ xs ys : List Int, pyListGt xs ys = true ↔ List.Lex (· < ·) ys xs := by
  intro xs
  induction xs with
  | nil =>
    intro ys
    constructor
    · intro h
      cases ys <;> simp [pyListGt] at h
    · intro h
      cases ys <;> cases h
  | cons a as ih =>
    intro ys
    cases ys with
    | nil =>
      constructor
      · intro _; exact List.Lex.nil
      · intro _; simp [pyListGt]
    | cons b bs =>
      simp only [pyListGt]
      by_cases hab : a > b
      · simp only [if_pos hab]
        exact ⟨fun _ => List.Lex.rel hab, fun _ => by trivial⟩
      · by_cases hlt : a < b
        · simp only [if_neg hab, if_pos hlt]
          constructor
          · intro h; simp at h
          · intro h
            cases h with
            | rel hr => exact absurd hr hab
            | cons h2 => omega
        · simp only [if_neg hab, if_neg hlt]
          have hba : b = a := by omega
          subst hba
          constructor
          · intro h; exact List.Lex.cons ((ih bs).mp h)
          · intro h
            cases h with
            | cons h2 => exact (ih bs).mpr h2
            | rel hr => exact absurd hr hab

/-- When `_is_newer_version` answers `True`, both version strings parsed. -/
theorem isNewer_true_parses {a b : String} (h : isNewerVersion a b = true) :
    (parseVersion a).isSome ∧ (parseVersion b).isSome := by
  unfold isNewerVersion at h
  cases hpa : parseVersion a with
  | none => rw [hpa] at h; cases hpb : parseVersion b <;> rw [hpb] at h <;> simp at h
  | some pa =>
    cases hpb : parseVersion b with
    | none => rw [hpa, hpb] at h; simp at h
    | some pb => simp [hpa, hpb]

/-- Every alert `_check_for_updates` emits passed the `_is_newer_version`
test. -/
theorem checkForUpdates_mem_newer {st : Store} {d : DeliverableRow} {al : ImpactAlert}
    (h : al ∈ checkForUpdates st d) :
    isNewerVersion al.new_version al.old_version = true := by
  unfold checkForUpdates at h
  rw [List.mem_bind] at h
  obtain ⟨p, hp, hmem⟩ := h
  cases hg : getElement st p.1 <;> rw [hg] at hmem
  · cases hmem
  · rename_i used
    dsimp only at hmem
    rcases List.mem_append.mp hmem with hm | hm <;>
    · obtain ⟨e, he, rfl⟩ := List.mem_map.mp hm
      have he2 := (List.mem_filter.mp (List.mem_filter.mp he).1).2
      dsimp only
      simp only [Bool.and_eq_true] at he2
      exact he2.2

/-- C5: the version comparator parses dotted strings into integer tuples,
right-pads with zeros and compares lexicographically as integers — "1.10" is
newer than "1.9" (while Python string comparison would say the opposite),
"2.0" is newer than "1.9", "1.0" is not newer than itself, and in general
`a` is newer than `b` exactly when `a`'s zero-padded integer tuple is
lexicographically greater than `b`'s. -/
theorem c5_version_comparator :
    (isNewerVersion "1.10" "1.9" = true ∧ isNewerVersion "1.9" "1.10" = false) ∧
    (isNewerVersion "2.0" "1.9" = true ∧ isNewerVersion "1.9" "2.0" = false) ∧
    (isNewerVersion "1.0" "1.0" = false) ∧
    (pyStrGt "1.10" "1.9" = false) ∧
    (∀ a b pa pb, parseVersion a = some pa → parseVersion b = some pb →
      (isNewerVersion a b = true ↔
        List.Lex (· < ·) (padTo pb (max pa.length pb.length))
          (padTo pa (max pa.length pb.length)))) := by
  refine ⟨⟨by decide, by decide⟩, ⟨by decide, by decide⟩, by decide, by decide, ?_⟩
  intro a b pa pb ha hb
  unfold isNewerVersion
  rw [ha, hb]
  exact pyListGt_iff_lex _ _

/-- C5 witness: the general equivalence applied at "1.10" vs "1.9". -/
theorem c5_version_comparator_witness :
    isNewerVersion "1.10" "1.9" = true ↔
      List.Lex (· < ·) (padTo [1, 9] 2) (padTo [1, 10] 2) := by
  have h := c5_version_comparator.2.2.2.2 "1.10" "1.9" [1, 10] [1, 9] (by decide) (by decide)
  simpa using h

/-- C10: the newer-version test is total — whenever either operand fails to
parse as dot-separated integers it answers `false` rather than raising — and
consequently every alert `computeAlerts` emits carries versions that both
parse (a pin with a malformed version simply yields no alert). -/
theorem c10_newer_version_total :
    (∀ a b : String, parseVersion a = none ∨ parseVersion b = none →
      isNewerVersion a b = false) ∧
    (isNewerVersion "1.x" "1.0" = false ∧ isNewerVersion "1.0" "1.x" = false ∧
      isNewerVersion "" "1.0" = false) ∧
    (∀ (st : Store) (d : DeliverableRow) (al : ImpactAlert), al ∈ checkForUpdates st d →
      (parseVersion al.new_version).isSome ∧ (parseVersion al.old_version).isSome) := by
  refine ⟨?_, ⟨by decide, by decide, by decide⟩, ?_⟩
  · intro a b h
    unfold isNewerVersion
    rcases h with h | h
    · rw [h]
    · rw [h]; cases parseVersion a <;> rfl
  · intro st d al hal
    exact isNewer_true_parses (checkForUpdates_mem_newer hal)

/-- C10 witness: the totality clause applied at the malformed "1.x". -/
theorem c10_newer_version_total_witness : isNewerVersion "1.x" "1.9" = false :=
  c10_newer_version_total.1 "1.x" "1.9" (Or.inl (by decide))

/-- C8: `compose` with strategy `five_ws`, one bound element without
`{who}`/`{what}` placeholders and instance data `who=Acme, what=ships v2,
when=today` (no `where`, no `why`) returns exactly "today — Acme ships v2.":
the absent parts are dropped, not left as blank placeholders. -/
theorem c8_five_ws_lede (e : Element)
    (hwho : strContains e.content "\x7bwho\x7d" = false)
    (hwhat : strContains e.content "\x7bwhat\x7d" = false) :
    composeSection "Lede" c8Strategy [e] c8InstanceData = "today — Acme ships v2." := by
  show extractFiveWs [e] c8InstanceData = "today — Acme ships v2."
  unfold extractFiveWs
  dsimp only
  rw [hwho, hwhat]
  rfl

/-- C8 witness: the theorem applied at a concrete placeholder-free element. -/
theorem c8_five_ws_lede_witness :
    composeSection "Lede" c8Strategy [c8Element] c8InstanceData = "today — Acme ships v2." :=
  c8_five_ws_lede c8Element (by decide) (by decide)

/-- C6: when `computeAlerts` contains an `update_pending` alert and `force`
is not set, `refreshDeliverable` fails with the blocked-refresh error whose
name list contains every affected element name, and the store it returns is
the unchanged input store (the failure precedes every write). -/
theorem c6_blocked_refresh (st : Store) (id : Nat) (d : DeliverableRow)
    (hd : getDeliverableRow st id = some d)
    (a : ImpactAlert) (ha : a ∈ checkForUpdates st d) (hs : a.status = "update_pending") :
    ∃ n names, refreshDeliverable st id false = (st, .errBlocked n names) ∧
      ∀ b ∈ checkForUpdates st d, b.status = "update_pending" → b.element_name ∈ names := by
  unfold refreshDeliverable
  rw [hd]
  dsimp only
  have hmem : a ∈ (checkForUpdates st d).filter (fun a => a.status == "update_pending") :=
    List.mem_filter.mpr ⟨ha, by simp [hs]⟩
  have hne : ((checkForUpdates st d).filter
      (fun a => a.status == "update_pending")).isEmpty = false := by
    cases hfl : (checkForUpdates st d).filter (fun a => a.status == "update_pending") with
    | nil => rw [hfl] at hmem; cases hmem
    | cons x xs => rfl
  rw [if_pos (by rw [hne]; rfl)]
  refine ⟨_, _, rfl, ?_⟩
  intro b hb hbs
  exact List.mem_map.mpr ⟨b, List.mem_filter.mpr ⟨hb, by simp [hbs]⟩, rfl⟩

/-- C6 witness: the blocked-refresh theorem at `storeB`, whose single alert
is `update_pending` for element "X". -/
theorem c6_blocked_refresh_witness :
    ∃ n names,
      refreshDeliverable storeB 10 false = (storeB, .errBlocked n names) ∧
      ∀ b ∈ checkForUpdates storeB rowD,
        b.status = "update_pending" → b.element_name ∈ names :=
  c6_blocked_refresh storeB 10 rowD (by decide)
    { element_id := 1, element_name := "X", old_version := "1.0", new_version := "1.1",
      status := "update_pending" } (by decide) (by decide)

/-- C3 (amended): a successful refresh leaves every stored field of the row
unchanged except `rendered_content`, `element_versions` — and
`voice_version`, which the source also overwrites, with the current voice
row's version. -/
theorem c3_refresh_frame (st st' : Store) (id : Nat) (force : Bool) (d : DeliverableRow)
    (h : refreshDeliverable st id force = (st', .ok))
    (hd : getDeliverableRow st id = some d) :
    ∃ r voice, getDeliverableRow st' id = some r ∧
      getVoice st d.voice_id = some voice ∧
      r.id = d.id ∧ r.name = d.name ∧ r.template_id = d.template_id ∧
      r.template_version = d.template_version ∧ r.story_model_id = d.story_model_id ∧
      r.voice_id = d.voice_id ∧ r.instance_data = d.instance_data ∧
      r.status = d.status ∧ r.version = d.version ∧
      r.prev_deliverable_id = d.prev_deliverable_id ∧
      r.validation_log = d.validation_log ∧ r.metadata = d.metadata ∧
      r.voice_version = voice.version := by
  obtain ⟨d0, t, v, hd0, ht, hv, rfl⟩ := refresh_ok_elim h
  rw [hd] at hd0
  injection hd0 with hdd
  subst hdd
  refine ⟨refreshRowUpdate st d t v d, v, ?_, hv, rfl, rfl, rfl, rfl, rfl, rfl, rfl, rfl,
    rfl, rfl, rfl, rfl, rfl⟩
  rw [refreshApply_row, hd]
  rfl

/-- C3 counterexample to the claim as stated: refreshing the deliverable of
`storeA` succeeds and overwrites `voice_version` ("1.0" → "2.0"), a stored
field other than `rendered_content`/`element_versions`. -/
theorem c3_refresh_frame_counterexample :
    (refreshDeliverable storeA 10 false).2 = .ok ∧
    (getDeliverableRow storeA 10).map (fun r => r.voice_version) = some "1.0" ∧
    (getDeliverableRow (refreshDeliverable storeA 10 false).1 10).map
      (fun r => r.voice_version) = some "2.0" :=
  ⟨by decide, by decide, by decide⟩

/-- C3 witness: the amended frame theorem at `storeA`. -/
theorem c3_refresh_frame_witness :
    ∃ r voice,
      getDeliverableRow (refreshDeliverable storeA 10 false).1 10 = some r ∧
      getVoice storeA 30 = some voice ∧
      r.id = 10 ∧ r.name = "D" ∧ r.template_id = 20 ∧ r.template_version = "1" ∧
      r.story_model_id = 40 ∧ r.voice_id = 30 ∧
      r.instance_data = ([] : List (String × String)) ∧
      r.status = .draft ∧ r.version = 1 ∧ r.prev_deliverable_id = none ∧
      r.validation_log = ([] : List ValidationLogEntry) ∧ r.metadata = ([] : Meta) ∧
      r.voice_version = voice.version := by
  have h := c3_refresh_frame storeA (refreshDeliverable storeA 10 false).1 10 false
    rowD (by decide) (by decide)
  exact h

/-- C2 (code-bug exhibit): at the failing input the refresh succeeds but
pins version "1.9" of the other layer's element — the scan matches by name
only and takes the maximum with Python *string* comparison — although the
referenced lineage's latest approved element is "1.10" and the repository's
own dotted comparator says "1.10" is newer ("1.10" loses to "1.9" as a
string). -/
theorem c2_refresh_string_compare_bug :
    (refreshDeliverable c2Store 10 false).2 = .ok ∧
    (getDeliverableRow (refreshDeliverable c2Store 10 false).1 10).map
      (fun r => r.element_versions) = some [(3, "1.9")] ∧
    (getElement c2Store 1).map (fun e => (e.version, e.status, e.layer_id))
      = some ("1.10", .approved, 1) ∧
    (getElement c2Store 3).map (fun e => (e.version, e.status, e.layer_id))
      = some ("1.9", .approved, 2) ∧
    isNewerVersion "1.10" "1.9" = true ∧
    pyStrGt "1.9" "1.10" = true :=
  ⟨by decide, by decide, by decide, by decide, by decide, by decide⟩

theorem refreshApply_getTemplate (st : Store) (id : Nat) (d : DeliverableRow)
    (t : Template) (v : Voice) (x : Nat) :
    getTemplate (refreshApplyStore st id d t v) x = getTemplate st x := by
  unfold getTemplate
  rw [refreshApply_templates]

theorem refreshApply_getVoice (st : Store) (id : Nat) (d : DeliverableRow)
    (t : Template) (v : Voice) (x : Nat) :
    getVoice (refreshApplyStore st id d t v) x = getVoice st x := by
  unfold getVoice
  rw [refreshApply_voices]

theorem refreshApply_getStoryModel (st : Store) (id : Nat) (d : DeliverableRow)
    (t : Template) (v : Voice) (x : Nat) :
    getStoryModel (refreshApplyStore st id d t v) x = getStoryModel st x := by
  unfold getStoryModel
  rw [refreshApply_storyModels]

/-- C7: two consecutive successful refreshes of the same deliverable, with
nothing changed in between, write identical `rendered_content` (and pin the
same `element_versions`): the second refresh recomputes from the same
elements, template, story model, voice and instance data. -/
theorem c7_refresh_idempotent (st st1 st2 : Store) (id : Nat) (f1 f2 : Bool)
    (h1 : refreshDeliverable st id f1 = (st1, .ok))
    (h2 : refreshDeliverable st1 id f2 = (st2, .ok)) :
    ∃ r1 r2, getDeliverableRow st1 id = some r1 ∧ getDeliverableRow st2 id = some r2 ∧
      r2.rendered_content = r1.rendered_content ∧
      r2.element_versions = r1.element_versions := by
  obtain ⟨d, t, v, hd, ht, hv, rfl⟩ := refresh_ok_elim h1
  obtain ⟨d1, t1, v1, hd1, ht1, hv1, rfl⟩ := refresh_ok_elim h2
  have hrow1 : getDeliverableRow (refreshApplyStore st id d t v) id
      = some (refreshRowUpdate st d t v d) := by
    rw [refreshApply_row, hd]
    rfl
  rw [hrow1] at hd1
  injection hd1 with hdd
  have htid : d1.template_id = d.template_id := by rw [← hdd]; rfl
  have hvid : d1.voice_id = d.voice_id := by rw [← hdd]; rfl
  have hsmid : d1.story_model_id = d.story_model_id := by rw [← hdd]; rfl
  have hidat : d1.instance_data = d.instance_data := by rw [← hdd]; rfl
  rw [refreshApply_getTemplate, htid, ht] at ht1
  rw [refreshApply_getVoice, hvid, hv] at hv1
  injection ht1 with htt
  injection hv1 with hvv
  have hrow2 : getDeliverableRow (refreshApplyStore (refreshApplyStore st id d t v) id d1 t1 v1)
      id = some (refreshRowUpdate (refreshApplyStore st id d t v) d1 t1 v1 d1) := by
    rw [refreshApply_row, hrow1, hdd]
    rfl
  refine ⟨_, _, hrow1, hrow2, ?_, ?_⟩ <;>
  · unfold refreshRowUpdate
    dsimp only
    rw [refreshApply_elements, refreshApply_getStoryModel, hsmid, hidat, ← htt, ← hvv]

/-- C7 witness: refreshing `storeA`'s deliverable twice in a row. -/
theorem c7_refresh_idempotent_witness :
    ∃ r1 r2,
      getDeliverableRow (refreshDeliverable storeA 10 false).1 10 = some r1 ∧
      getDeliverableRow
        (refreshDeliverable (refreshDeliverable storeA 10 false).1 10 false).1 10 = some r2 ∧
      r2.rendered_content = r1.rendered_content ∧
      r2.element_versions = r1.element_versions :=
  c7_refresh_idempotent storeA (refreshDeliverable storeA 10 false).1
    (refreshDeliverable (refreshDeliverable storeA 10 false).1 10 false).1 10 false false
    (by decide) (by decide)

/-! ## Update-path lemmas -/

theorem getDeliverableRow_id {st : Store} {id : Nat} {d : DeliverableRow}
    (h : getDeliverableRow st id = some d) : d.id = id := by
  unfold getDeliverableRow at h
  have := List.find?_some h
  simpa using this

theorem getDeliverableRow_mem {st : Store} {id : Nat} {d : DeliverableRow}
    (h : getDeliverableRow st id = some d) : d ∈ st.deliverables :=
  List.mem_of_find?_eq_some h

theorem finishUpdate_deliverables (st : Store) (oldId : Nat) (r : DeliverableRow) (b : Bool) :
    (finishUpdate st oldId r b).1.deliverables =
      (r :: st.deliverables).map (fun x =>
        if x.id == oldId then { x with status := .superseded } else x) := by
  unfold finishUpdate
  dsimp only
  split
  · rw [trackFold_deliverables]
  · rfl

theorem finishUpdate_outcome (st : Store) (oldId : Nat) (r : DeliverableRow) (b : Bool) :
    (finishUpdate st oldId r b).2 = .ok r.id ∨
      (finishUpdate st oldId r b).2 = .errReadBack r.id := by
  unfold finishUpdate
  dsimp only
  split
  · exact Or.inl rfl
  · exact Or.inr rfl

theorem finishUpdate_getNew (st : Store) (oldId : Nat) (r : DeliverableRow) (b : Bool)
    (hne : r.id ≠ oldId) :
    getDeliverableRow (finishUpdate st oldId r b).1 r.id = some r := by
  unfold getDeliverableRow
  rw [finishUpdate_deliverables]
  simp only [List.map_cons]
  have h1 : (r.id == oldId) = false := by simp [hne]
  rw [h1]
  simp only [Bool.false_eq_true, if_false]
  rw [List.find?_cons]
  have h2 : (r.id == r.id) = true := by simp
  rw [h2]

theorem finishUpdate_getOld (st : Store) (oldId : Nat) (r : DeliverableRow) (b : Bool)
    (hne : r.id ≠ oldId) :
    getDeliverableRow (finishUpdate st oldId r b).1 oldId =
      (getDeliverableRow st oldId).map
        (fun x => { x with status := DeliverableStatus.superseded }) := by
  unfold getDeliverableRow
  rw [finishUpdate_deliverables]
  simp only [List.map_cons]
  have h1 : (r.id == oldId) = false := by simp [hne]
  rw [h1]
  simp only [Bool.false_eq_true, if_false]
  rw [List.find?_cons, h1]
  exact find?_map_keyed (fun x => x.id) oldId
    (fun x => { x with status := DeliverableStatus.superseded }) (fun x => rfl) st.deliverables

theorem finishUpdate_length (st : Store) (oldId : Nat) (r : DeliverableRow) (b : Bool) :
    (finishUpdate st oldId r b).1.deliverables.length = st.deliverables.length + 1 := by
  rw [finishUpdate_deliverables]
  simp

/-- Inversion for `update_deliverable` calls that reached the insert: the
old row was found, a new row derived from `updateBaseRow` was inserted via
`finishUpdate`, and for patches that do not touch voice/instance data the
new row is exactly the base copy. -/
theorem update_committed_elim {st st' : Store} {id nid : Nat} {upd : DeliverableUpdate}
    {out : UpdateOutcome}
    (h : updateDeliverable st id upd = (st', out))
    (hout : out = .ok nid ∨ out = .errReadBack nid) :
    ∃ d newRow trackDeps, getDeliverableRow st id = some d ∧
      (st', out) = finishUpdate st id newRow trackDeps ∧
      newRow.id = st.nextId ∧
      newRow.version = d.version + 1 ∧
      newRow.prev_deliverable_id = some d.id ∧
      ((upd.voice_id.isSome || upd.instance_data.isSome) = false →
        newRow = updateBaseRow st d upd) ∧
      ((upd.voice_id.isSome || upd.instance_data.isSome) = true →
        ∃ template voice storyModel,
          getTemplate st d.template_id = some template ∧
          getVoice st (upd.voice_id.getD d.voice_id) = some voice ∧
          getStoryModel st d.story_model_id = some storyModel ∧
          newRow.rendered_content =
            (template.section_bindings.foldl
              (fun (acc : List (String × RenderedValue) × List (Nat × String)) binding =>
                let sectionContent := assembleSectionContent st binding
                  (upd.instance_data.getD d.instance_data) (some storyModel) (some voice)
                (upsert acc.1 binding.section_name
                  (RenderedValue.pair sectionContent.1 sectionContent.2),
                 binding.element_ids.foldl (fun ev eid =>
                   match getElement st eid with
                   | some e => upsert ev eid e.version
                   | none => ev) acc.2)) ([], [])).1) := by
  unfold updateDeliverable at h
  cases hd : getDeliverableRow st id <;> rw [hd] at h
  · injection h with h1 h2
    rcases hout with rfl | rfl <;> simp at h2
  · rename_i d
    dsimp only at h
    split at h
    · injection h with h1 h2
      rcases hout with rfl | rfl <;> simp at h2
    · split at h
      · injection h with h1 h2
        rcases hout with rfl | rfl <;> simp at h2
      · rename_i hname hsm
        split at h
        · -- needsRerender = true
          rename_i hre
          dsimp only [updateBaseRow] at h
          cases ht : getTemplate st d.template_id <;> rw [ht] at h
          · injection h with h1 h2
            rcases hout with rfl | rfl <;> simp at h2
          · rename_i template
            cases hv : getVoice st (upd.voice_id.getD d.voice_id) <;> rw [hv] at h
            · injection h with h1 h2
              rcases hout with rfl | rfl <;> simp at h2
            · rename_i voice
              cases hsm2 : getStoryModel st d.story_model_id <;> rw [hsm2] at h
              · injection h with h1 h2
                rcases hout with rfl | rfl <;> simp at h2
              · rename_i storyModel
                refine ⟨d, _, true, rfl, h.symm, rfl, rfl, rfl, ?_, ?_⟩
                · intro hfalse
                  have hsm3 : upd.story_model_id.isSome = false := by
                    cases hx : upd.story_model_id
                    · rfl
                    · rw [hx] at hsm; simp at hsm
                  rw [hfalse, hsm3] at hre
                  simp at hre
                · intro _
                  exact ⟨template, voice, storyModel, ht, hv, hsm2, rfl⟩
        · -- needsRerender = false
          rename_i hre
          refine ⟨d, updateBaseRow st d upd, false, rfl, h.symm, rfl, rfl, rfl,
            fun _ => rfl, ?_⟩
          intro htrue
          rw [Bool.or_eq_true, Bool.or_eq_true] at hre
          push_neg at hre
          rcases Bool.or_eq_true _ _ |>.mp htrue with h1 | h1
          · exact absurd h1 hre.1.1
          · exact absurd h1 hre.1.2

/-- C1 (amended): every committed `updateDeliverable` call — including
name/status/metadata-only patches, which the claim says are not
version-creating — inserts a new row at `version + 1` with
`prev_deliverable_id = D.id` and marks the old row superseded; only
voice/instance-data patches additionally re-render (for the others the new
row copies `rendered_content` and `element_versions` unchanged and merely
applies the patched name/status/metadata). -/
theorem c1_update_always_creates_version (st st' : Store) (id nid : Nat)
    (upd : DeliverableUpdate) (out : UpdateOutcome)
    (hfresh : ∀ r ∈ st.deliverables, r.id ≠ st.nextId)
    (h : updateDeliverable st id upd = (st', out))
    (hout : out = .ok nid ∨ out = .errReadBack nid) :
    ∃ d newRow, getDeliverableRow st id = some d ∧
      getDeliverableRow st' nid = some newRow ∧
      newRow.version = d.version + 1 ∧
      newRow.prev_deliverable_id = some d.id ∧
      (getDeliverableRow st' id).map (fun r => r.status) = some .superseded ∧
      st'.deliverables.length = st.deliverables.length + 1 ∧
      ((upd.voice_id.isSome || upd.instance_data.isSome) = false →
        newRow.rendered_content = d.rendered_content ∧
        newRow.element_versions = d.element_versions ∧
        newRow.name = upd.name.getD d.name ∧
        newRow.status = upd.status.getD d.status ∧
        newRow.metadata = upd.metadata.getD d.metadata) := by
  obtain ⟨d, newRow, tr, hd, hfin, hidEq, hver, hprev, hbase, _⟩ := update_committed_elim h hout
  have hne : newRow.id ≠ id := by
    rw [hidEq]
    intro hx
    exact hfresh d (getDeliverableRow_mem hd) (by rw [getDeliverableRow_id hd, ← hx])
  have hst' : st' = (finishUpdate st id newRow tr).1 := congrArg Prod.fst hfin
  have hout2 : out = (finishUpdate st id newRow tr).2 := congrArg Prod.snd hfin
  have hnid : nid = newRow.id := by
    rcases finishUpdate_outcome st id newRow tr with ho | ho <;> rw [ho] at hout2 <;>
      rcases hout with h3 | h3 <;> rw [h3] at hout2 <;> simp at hout2 <;> exact hout2
  refine ⟨d, newRow, hd, ?_, hver, hprev, ?_, ?_, ?_⟩
  · rw [hst', hnid]
    exact finishUpdate_getNew st id newRow tr hne
  · rw [hst', finishUpdate_getOld st id newRow tr hne, hd]
    rfl
  · rw [hst', finishUpdate_length]
  · intro hfalse
    rw [hbase hfalse]
    exact ⟨rfl, rfl, rfl, rfl, rfl⟩

/-- C1 counterexample to the claim as stated: a name-only patch — which the
claim says is NOT version-creating — still inserts a new row (2 rows where
there was 1) at version 2 with prev-deliverable = 10, and marks row 10
superseded. -/
theorem c1_name_patch_creates_version :
    (updateDeliverable storeA 10 { name := some "D-renamed" }).2 = .ok 100 ∧
    (updateDeliverable storeA 10 { name := some "D-renamed" }).1.deliverables.length = 2 ∧
    (getDeliverableRow (updateDeliverable storeA 10 { name := some "D-renamed" }).1 100).map
      (fun r => (r.version, r.prev_deliverable_id, r.name))
      = some (2, some 10, "D-renamed") ∧
    (getDeliverableRow (updateDeliverable storeA 10 { name := some "D-renamed" }).1 10).map
      (fun r => r.status) = some .superseded :=
  ⟨by decide, by decide, by decide, by decide⟩

/-- C1 witness: the amended theorem at `storeA` with a name-only patch. -/
theorem c1_update_always_creates_version_witness :
    ∃ d newRow,
      getDeliverableRow storeA 10 = some d ∧
      getDeliverableRow (updateDeliverable storeA 10 { name := some "D-renamed" }).1 100
        = some newRow ∧
      newRow.version = d.version + 1 ∧
      newRow.prev_deliverable_id = some d.id ∧
      (getDeliverableRow (updateDeliverable storeA 10 { name := some "D-renamed" }).1 10).map
        (fun r => r.status) = some .superseded ∧
      (updateDeliverable storeA 10 { name := some "D-renamed" }).1.deliverables.length
        = storeA.deliverables.length + 1 ∧
      ((({ name := some "D-renamed" } : DeliverableUpdate).voice_id.isSome ||
          ({ name := some "D-renamed" } : DeliverableUpdate).instance_data.isSome) = false →
        newRow.rendered_content = d.rendered_content ∧
        newRow.element_versions = d.element_versions ∧
        newRow.name = ({ name := some "D-renamed" } : DeliverableUpdate).name.getD d.name ∧
        newRow.status = ({ name := some "D-renamed" } : DeliverableUpdate).status.getD d.status ∧
        newRow.metadata
          = ({ name := some "D-renamed" } : DeliverableUpdate).metadata.getD d.metadata) :=
  c1_update_always_creates_version storeA
    (updateDeliverable storeA 10 { name := some "D-renamed" }).1 10 100
    { name := some "D-renamed" } (.ok 100) (by decide) (by decide) (Or.inl rfl)

/-- Inversion for a successful `create_deliverable`: the created row is
retrievable under the returned id and its `rendered_content` is the create
loop's accumulator. -/
theorem create_ok_elim {st st' : Store} {cd : DeliverableCreate} {cid : Nat}
    (h : createDeliverable st cd = (st', .ok cid)) :
    ∃ template voice,
      getTemplate st cd.template_id = some template ∧
      getVoice st (cd.voice_id.getD template.default_voice_id) = some voice ∧
      (getDeliverableRow st' cid).map (fun r => r.rendered_content) = some
        (template.section_bindings.foldl
          (fun (acc : List (String × RenderedValue) × List (String × String) ×
              List (Nat × String)) binding =>
            let (sectionContent, sectionNotes) :=
              assembleSectionContent st binding cd.instance_data
                (getStoryModel st template.story_model_id) (some voice)
            let rendered := upsert acc.1 binding.section_name (RenderedValue.s sectionContent)
            let tnotes := if sectionNotes != "" then
                upsert acc.2.1 binding.section_name sectionNotes
              else acc.2.1
            let ev := binding.element_ids.foldl (fun ev eid =>
              match getElement st eid with
              | some e => upsert ev eid e.version
              | none => ev) acc.2.2
            (rendered, tnotes, ev)) ([], [], [])).1 := by
  unfold createDeliverable at h
  cases ht : getTemplate st cd.template_id <;> rw [ht] at h
  · injection h with h1 h2
    simp at h2
  · rename_i template
    dsimp only at h
    cases hv : getVoice st (cd.voice_id.getD template.default_voice_id) <;> rw [hv] at h
    · injection h with h1 h2
      simp at h2
    · rename_i voice
      injection h with h1 h2
      injection h2 with h3
      refine ⟨template, voice, rfl, hv, ?_⟩
      rw [← h1, ← h3]
      unfold getDeliverableRow
      rw [trackFold_deliverables]
      dsimp only
      rw [List.find?_cons]
      have hb : (st.nextId == st.nextId) = true := by simp
      rw [hb]
      rfl

/-- Shape of the create loop's rendered accumulator: every stored value is a
plain string. -/
theorem create_rendered_mem (st : Store) (idata : List (String × String))
    (sm? : Option StoryModel) (voice : Voice) (bindings : List SectionBinding)
    (r0 : List (String × RenderedValue)) (t0 : List (String × String))
    (e0 : List (Nat × String)) :
    ∀ kv ∈ (bindings.foldl
      (fun (acc : List (String × RenderedValue) × List (String × String) ×
          List (Nat × String)) binding =>
        let (sectionContent, sectionNotes) :=
          assembleSectionContent st binding idata sm? (some voice)
        let rendered := upsert acc.1 binding.section_name (RenderedValue.s sectionContent)
        let tnotes := if sectionNotes != "" then
            upsert acc.2.1 binding.section_name sectionNotes
          else acc.2.1
        let ev := binding.element_ids.foldl (fun ev eid =>
          match getElement st eid with
          | some e => upsert ev eid e.version
          | none => ev) acc.2.2
        (rendered, tnotes, ev)) (r0, t0, e0)).1,
      kv ∈ r0 ∨ ∃ text, kv.2 = RenderedValue.s text := by
  induction bindings generalizing r0 t0 e0 with
  | nil => exact fun kv h => Or.inl h
  | cons b bs ih =>
    intro kv h
    rw [List.foldl_cons] at h
    dsimp only at h
    rcases ih _ _ _ kv h with h1 | h1
    · rcases mem_upsert kv h1 with h2 | h2
      · exact Or.inl h2
      · exact Or.inr ⟨_, h2.2⟩
    · exact Or.inr h1

/-- Shape of the update re-render loop's rendered accumulator: every stored
value is the unexploded assembler tuple of some binding. -/
theorem update_rendered_mem (st : Store) (idata : List (String × String))
    (storyModel : StoryModel) (voice : Voice) (bindings : List SectionBinding)
    (r0 : List (String × RenderedValue)) (e0 : List (Nat × String)) :
    ∀ kv ∈ (bindings.foldl
      (fun (acc : List (String × RenderedValue) × List (Nat × String)) binding =>
        let sectionContent := assembleSectionContent st binding idata
          (some storyModel) (some voice)
        (upsert acc.1 binding.section_name
          (RenderedValue.pair sectionContent.1 sectionContent.2),
         binding.element_ids.foldl (fun ev eid =>
           match getElement st eid with
           | some e => upsert ev eid e.version
           | none => ev) acc.2)) (r0, e0)).1,
      kv ∈ r0 ∨ ∃ b ∈ bindings, kv.1 = b.section_name ∧
        kv.2 = RenderedValue.pair
          (assembleSectionContent st b idata (some storyModel) (some voice)).1
          (assembleSectionContent st b idata (some storyModel) (some voice)).2 := by
  induction bindings generalizing r0 e0 with
  | nil => exact fun kv h => Or.inl h
  | cons b bs ih =>
    intro kv h
    rw [List.foldl_cons] at h
    dsimp only at h
    rcases ih _ _ kv h with h1 | h1
    · rcases mem_upsert kv h1 with h2 | h2
      · exact Or.inl h2
      · exact Or.inr ⟨b, List.mem_cons_self _ _, h2.1, h2.2⟩
    · obtain ⟨b', hb', h2⟩ := h1
      exact Or.inr ⟨b', List.mem_cons_of_mem _ hb', h2⟩

/-- C9: a version-creating update that re-renders (voice or instance-data
patched) stores, per section, the unexploded 2-tuple returned by
`_assemble_section_content` in the new row's `rendered_content`; a created
deliverable's `rendered_content` values are plain strings — so the two row
shapes differ. -/
theorem c9_update_stores_raw_tuples :
    (∀ (st st' : Store) (id nid : Nat) (upd : DeliverableUpdate) (out : UpdateOutcome),
      (∀ r ∈ st.deliverables, r.id ≠ st.nextId) →
      (upd.voice_id.isSome || upd.instance_data.isSome) = true →
      updateDeliverable st id upd = (st', out) →
      (out = .ok nid ∨ out = .errReadBack nid) →
      ∃ d newRow template storyModel voice,
        getDeliverableRow st id = some d ∧
        getDeliverableRow st' nid = some newRow ∧
        getTemplate st d.template_id = some template ∧
        getVoice st (upd.voice_id.getD d.voice_id) = some voice ∧
        getStoryModel st d.story_model_id = some storyModel ∧
        ∀ kv ∈ newRow.rendered_content, ∃ b ∈ template.section_bindings,
          kv.1 = b.section_name ∧
          kv.2 = RenderedValue.pair
            (assembleSectionContent st b (upd.instance_data.getD d.instance_data)
              (some storyModel) (some voice)).1
            (assembleSectionContent st b (upd.instance_data.getD d.instance_data)
              (some storyModel) (some voice)).2) ∧
    (∀ (st st' : Store) (cd : DeliverableCreate) (cid : Nat),
      createDeliverable st cd = (st', .ok cid) →
      ∃ row, getDeliverableRow st' cid = some row ∧
        ∀ kv ∈ row.rendered_content, ∃ text, kv.2 = RenderedValue.s text) := by
  constructor
  · intro st st' id nid upd out hfresh hre h hout
    obtain ⟨d, newRow, tr, hd, hfin, hidEq, _, _, _, hrer⟩ := update_committed_elim h hout
    obtain ⟨template, voice, storyModel, ht, hv, hsm, hrc⟩ := hrer hre
    have hne : newRow.id ≠ id := by
      rw [hidEq]
      intro hx
      exact hfresh d (getDeliverableRow_mem hd) (by rw [getDeliverableRow_id hd, ← hx])
    have hst' : st' = (finishUpdate st id newRow tr).1 := congrArg Prod.fst hfin
    have hout2 : out = (finishUpdate st id newRow tr).2 := congrArg Prod.snd hfin
    have hnid : nid = newRow.id := by
      rcases finishUpdate_outcome st id newRow tr with ho | ho <;> rw [ho] at hout2 <;>
        rcases hout with h3 | h3 <;> rw [h3] at hout2 <;> simp at hout2 <;> exact hout2
    refine ⟨d, newRow, template, storyModel, voice, hd, ?_, ht, hv, hsm, ?_⟩
    · rw [hst', hnid]
      exact finishUpdate_getNew st id newRow tr hne
    · intro kv hkv
      rw [hrc] at hkv
      rcases update_rendered_mem st (upd.instance_data.getD d.instance_data) storyModel voice
        template.section_bindings [] [] kv hkv with h1 | h1
      · cases h1
      · exact h1
  · intro st st' cd cid h
    obtain ⟨template, voice, ht, hv, hrc⟩ := create_ok_elim h
    cases hrow : getDeliverableRow st' cid with
    | none => rw [hrow] at hrc; simp at hrc
    | some row =>
      rw [hrow] at hrc
      simp only [Option.map_some'] at hrc
      injection hrc with hrc2
      refine ⟨row, rfl, ?_⟩
      intro kv hkv
      rw [hrc2] at hkv
      rcases create_rendered_mem st cd.instance_data
        (getStoryModel st template.story_model_id) voice template.section_bindings
        [] [] [] kv hkv with h1 | h1
      · cases h1
      · exact h1

/-- C9 witness: both clauses at `storeD` — a voice patch (committed with the
read-back error, as the tuple-shaped row cannot be parsed back) and a plain
create. -/
theorem c9_update_stores_raw_tuples_witness :
    (∃ d newRow template storyModel voice,
      getDeliverableRow storeD 10 = some d ∧
      getDeliverableRow (updateDeliverable storeD 10 { voice_id := some 30 }).1 100
        = some newRow ∧
      getTemplate storeD d.template_id = some template ∧
      getVoice storeD
        (({ voice_id := some 30 } : DeliverableUpdate).voice_id.getD d.voice_id)
        = some voice ∧
      getStoryModel storeD d.story_model_id = some storyModel ∧
      ∀ kv ∈ newRow.rendered_content, ∃ b ∈ template.section_bindings,
        kv.1 = b.section_name ∧
        kv.2 = RenderedValue.pair
          (assembleSectionContent storeD b
            (({ voice_id := some 30 } : DeliverableUpdate).instance_data.getD d.instance_data)
            (some storyModel) (some voice)).1
          (assembleSectionContent storeD b
            (({ voice_id := some 30 } : DeliverableUpdate).instance_data.getD d.instance_data)
            (some storyModel) (some voice)).2) ∧
    (∃ row,
      getDeliverableRow
        (createDeliverable storeD { name := "C", template_id := 20 }).1 100 = some row ∧
      ∀ kv ∈ row.rendered_content, ∃ text, kv.2 = RenderedValue.s text) :=
  ⟨c9_update_stores_raw_tuples.1 storeD
      (updateDeliverable storeD 10 { voice_id := some 30 }).1 10 100
      { voice_id := some 30 } (.errReadBack 100) (by decide) (by decide) (by decide)
      (Or.inr rfl),
   c9_update_stores_raw_tuples.2 storeD
      (createDeliverable storeD { name := "C", template_id := 20 }).1
      { name := "C", template_id := 20 } 100 (by decide)⟩

/-! ## Element approval (C4) -/

theorem mem_zip_map {α : Type} (g : α → α) (l : List α) :
    ∀ pr ∈ l.zip (l.map g), pr.2 = g pr.1 := by
  induction l with
  | nil => intro pr h; cases h
  | cons a t ih =>
    intro pr h
    rw [List.map_cons, List.zip_cons_cons] at h
    rcases List.mem_cons.mp h with h1 | h1
    · rw [h1]
    · exact ih pr h1

/-- C4 (amended): approving a draft scans elements by NAME equality alone —
the layer is never consulted, so the superseded sibling may live in a
different layer (see the counterexample) — and every element the call
changes is either the draft itself (now approved) or a same-name
previously-approved element (now superseded); approving a non-draft fails
with InvalidStateTransition and changes nothing.  `hids` is the primary-key
uniqueness of element ids. -/
theorem c4_approve_element (st : Store) (id : Nat) (e : Element)
    (hids : ∀ x ∈ st.elements, ∀ y ∈ st.elements, x.id = y.id → x = y)
    (he : getElement st id = some e) :
    (e.status = .draft →
      ∃ st', approveElement st id = (st', .ok) ∧
        st'.elements.length = st.elements.length ∧
        ∀ pr ∈ st.elements.zip st'.elements,
          pr.2 = pr.1 ∨
          (pr.1.id = id ∧ pr.2 = { pr.1 with status := ElementStatus.approved }) ∨
          (pr.1.name = e.name ∧ pr.1.status = .approved ∧ pr.1.id ≠ id ∧
            pr.2 = { pr.1 with status := ElementStatus.superseded })) ∧
    (e.status ≠ .draft →
      approveElement st id = (st, .errInvalidState e.status)) := by
  have heid : e.id = id := by
    unfold getElement at he
    simpa using List.find?_some he
  constructor
  · intro hdraft
    unfold approveElement
    rw [he]
    dsimp only
    have hcond : (e.status != ElementStatus.draft) = false := by rw [hdraft]; rfl
    rw [if_neg (by rw [hcond]; exact Bool.false_ne_true)]
    cases hex : st.elements.find?
        (fun x => x.name == e.name && x.status == ElementStatus.approved && x.id != id) with
    | none =>
      dsimp only [setElementStatus]
      refine ⟨_, rfl, by simp, ?_⟩
      intro pr hpr
      have h2 := mem_zip_map
        (fun x => if x.id == id then { x with status := ElementStatus.approved } else x)
        st.elements pr hpr
      by_cases h1 : pr.1.id = id
      · right; left
        refine ⟨h1, ?_⟩
        rw [h2]
        simp [h1]
      · left
        rw [h2]
        simp [h1]
    | some ex =>
      have hexmem : ex ∈ st.elements := List.mem_of_find?_eq_some hex
      have hexpred := List.find?_some hex
      simp only [Bool.and_eq_true, beq_iff_eq, bne_iff_ne] at hexpred
      obtain ⟨⟨hexname, hexappr⟩, hexid⟩ := hexpred
      dsimp only [setElementStatus]
      rw [List.map_map]
      refine ⟨_, rfl, by simp, ?_⟩
      intro pr hpr
      have hprmem : pr.1 ∈ st.elements := (List.mem_zip hpr).1
      have h2 := mem_zip_map
        ((fun x => if x.id == id then { x with status := ElementStatus.approved } else x) ∘
          (fun x => if x.id == ex.id then { x with status := ElementStatus.superseded } else x))
        st.elements pr hpr
      simp only [Function.comp] at h2
      by_cases h1 : pr.1.id = id
      · right; left
        have hne2 : (pr.1.id == ex.id) = false := by
          simp only [beq_eq_false_iff_ne]
          rw [h1]
          exact fun hx => hexid hx.symm
        refine ⟨h1, ?_⟩
        rw [h2, hne2]
        simp [h1]
      · by_cases h3 : pr.1.id = ex.id
        · right; right
          have hprex : pr.1 = ex := hids pr.1 hprmem ex hexmem h3
          refine ⟨by rw [hprex]; exact hexname, by rw [hprex]; exact hexappr,
            by rw [hprex]; exact hexid, ?_⟩
          rw [h2]
          simp only [h3, beq_self_eq_true, if_true]
          have hne3 : (ex.id == id) = false := by simp [hexid]
          simp [hne3]
        · left
          rw [h2]
          simp [h1, h3]
  · intro hnd
    unfold approveElement
    rw [he]
    dsimp only
    have hcond : (e.status != ElementStatus.draft) = true := by simp [hnd]
    rw [if_pos hcond]

/-- C4 counterexample to the claim as stated: approving the layer-2 draft
"X" supersedes the approved "X" of layer 1 — an element outside the draft's
layer. -/
theorem c4_cross_layer_supersession :
    (approveElement c4Store 3).2 = .ok ∧
    (getElement c4Store 3).map (fun e => e.layer_id) = some 2 ∧
    (getElement c4Store 1).map (fun e => (e.layer_id, e.status)) = some (1, .approved) ∧
    (getElement (approveElement c4Store 3).1 1).map (fun e => e.status)
      = some .superseded ∧
    (getElement (approveElement c4Store 3).1 3).map (fun e => e.status)
      = some .approved :=
  ⟨by decide, by decide, by decide, by decide, by decide⟩

/-- C4 witness: the amended theorem at `c4Store` approving element 3. -/
theorem c4_approve_element_witness :
    (elemOtherLayerDraft.status = .draft →
      ∃ st', approveElement c4Store 3 = (st', .ok) ∧
        st'.elements.length = c4Store.elements.length ∧
        ∀ pr ∈ c4Store.elements.zip st'.elements,
          pr.2 = pr.1 ∨
          (pr.1.id = 3 ∧ pr.2 = { pr.1 with status := ElementStatus.approved }) ∨
          (pr.1.name = elemOtherLayerDraft.name ∧ pr.1.status = .approved ∧ pr.1.id ≠ 3 ∧
            pr.2 = { pr.1 with status := ElementStatus.superseded })) ∧
    (elemOtherLayerDraft.status ≠ .draft →
      approveElement c4Store 3 = (c4Store, .errInvalidState elemOtherLayerDraft.status)) :=
  c4_approve_element c4Store 3 elemOtherLayerDraft (by decide) (by decide)

end StoryOS
